import Mathlib

/-!
# Verification of the BernieBot core against its design specification

This file is a shallow embedding of the relevant parts of the BernieBot
repository (`travus_bot_base.py`, `core_commands.py`, `modules/moderation.py`,
`modules/utils.py`) into Lean 4, together with theorems settling the claims of
the natural-language specification.

Modelling conventions:
* Python `dict`s become association lists (`List (κ × ν)`) with lookup of the
  first matching key, in-place replacement on overwrite (preserving insertion
  order, as Python dicts do) and removal of the first matching key on `del`.
* Database tables with a primary key become association lists updated by the
  corresponding upsert/update/delete statements; the reminders table, which has
  no key, becomes a plain list of rows to which `INSERT` appends.
* Discord snowflake ids (`guild.id`, `member.id`, ...) are modelled as `Nat`.
  The SQL tables store `str(id)`; since `str` is injective on ints, rows are
  modelled with the numeric ids directly.
* `datetime` timestamps are modelled as `Nat` (only compared, never computed).
* Exceptions become `Except` results; Python functions that can raise return
  `Except ε α`.
-/

set_option autoImplicit false

namespace BernieBot

/-! ## Python `dict` operations (association lists)

`dictLookup` is `d[k]`/`d.get(k)`, `dictInsert` is `d[k] = v` (replaces the
value in place if the key is present, otherwise appends the new pair at the
end, matching insertion-order semantics of Python dicts), `dictErase` is
`del d[k]` (removes the first — under the dict invariant, only — pair with
that key). -/

def dictLookup {κ ν : Type} [DecidableEq κ] (k : κ) : List (κ × ν) → Option ν
  | [] => none
  | (k', v) :: rest => if k' = k then some v else dictLookup k rest

def dictInsert {κ ν : Type} [DecidableEq κ] (k : κ) (v : ν) : List (κ × ν) → List (κ × ν)
  | [] => [(k, v)]
  | (k', v') :: rest => if k' = k then (k, v) :: rest else (k', v') :: dictInsert k v rest

def dictErase {κ ν : Type} [DecidableEq κ] (k : κ) : List (κ × ν) → List (κ × ν)
  | [] => []
  | (k', v') :: rest => if k' = k then rest else (k', v') :: dictErase k rest

/-- The number of entries stored under key `k` (1 for a well-formed dict whose
key is present, 0 if absent). -/
def dictCountKey {κ ν : Type} [DecidableEq κ] (k : κ) (l : List (κ × ν)) : Nat :=
  (l.filter (fun p => p.1 = k)).length

/-- Keys of an association list, used to state the dict well-formedness
invariant (`(dictKeys l).Nodup`). -/
def dictKeys {κ ν : Type} (l : List (κ × ν)) : List κ :=
  l.map Prod.fst

theorem dictLookup_dictInsert_self {κ ν : Type} [DecidableEq κ] (k : κ) (v : ν)
    (l : List (κ × ν)) : dictLookup k (dictInsert k v l) = some v := by
  induction l with
  | nil => simp [dictInsert, dictLookup]
  | cons p rest ih =>
    obtain ⟨k', v'⟩ := p
    by_cases h : k' = k
    · simp [dictInsert, dictLookup, h]
    · simp [dictInsert, dictLookup, h, ih]

theorem dictLookup_dictInsert_ne {κ ν : Type} [DecidableEq κ] (k k' : κ) (v : ν)
    (l : List (κ × ν)) (h : k ≠ k') : dictLookup k' (dictInsert k v l) = dictLookup k' l := by
  induction l with
  | nil => simp [dictInsert, dictLookup, h]
  | cons p rest ih =>
    obtain ⟨k0, v0⟩ := p
    by_cases h0 : k0 = k
    · subst h0
      simp [dictInsert, dictLookup, h]
    · simp [dictInsert, dictLookup, h0, ih]

theorem dictLookup_eq_none_of_notMem {κ ν : Type} [DecidableEq κ] (k : κ)
    (l : List (κ × ν)) (h : k ∉ dictKeys l) : dictLookup k l = none := by
  induction l with
  | nil => simp [dictLookup]
  | cons p rest ih =>
    obtain ⟨k0, v0⟩ := p
    simp only [dictKeys, List.map_cons, List.mem_cons] at h
    push_neg at h
    rw [dictLookup, if_neg (fun hc => h.1 hc.symm)]
    exact ih (by simpa [dictKeys] using h.2)

theorem mem_dictKeys_dictInsert {κ ν : Type} [DecidableEq κ] (k x : κ) (v : ν)
    (l : List (κ × ν)) : x ∈ dictKeys (dictInsert k v l) ↔ x = k ∨ x ∈ dictKeys l := by
  induction l with
  | nil =>
    simp only [dictInsert, dictKeys, List.map_cons, List.map_nil, List.mem_singleton,
      List.not_mem_nil, or_false]
  | cons p rest ih =>
    obtain ⟨k0, v0⟩ := p
    by_cases h0 : k0 = k
    · subst h0
      have e : dictInsert k0 v ((k0, v0) :: rest) = (k0, v) :: rest := by
        simp [dictInsert]
      rw [e]
      simp only [dictKeys, List.map_cons, List.mem_cons]
      tauto
    · simp only [dictInsert, if_neg h0, dictKeys, List.map_cons, List.mem_cons]
      rw [show dictKeys (dictInsert k v rest) = (dictInsert k v rest).map Prod.fst from rfl,
        show dictKeys rest = rest.map Prod.fst from rfl] at ih
      tauto

theorem notMem_dictKeys_dictCountKey {κ ν : Type} [DecidableEq κ] (k : κ)
    (l : List (κ × ν)) (h : k ∉ dictKeys l) : dictCountKey k l = 0 := by
  induction l with
  | nil => simp [dictCountKey]
  | cons p rest ih =>
    obtain ⟨k0, v0⟩ := p
    simp only [dictKeys, List.map_cons, List.mem_cons] at h
    push_neg at h
    have hne : ¬ (k0 = k) := fun hc => h.1 hc.symm
    simp only [dictCountKey, List.filter_cons]
    rw [if_neg (by simpa using hne)]
    exact ih (by simpa [dictKeys] using h.2)

theorem dictKeys_nodup_dictInsert {κ ν : Type} [DecidableEq κ] (k : κ) (v : ν)
    (l : List (κ × ν)) (h : (dictKeys l).Nodup) : (dictKeys (dictInsert k v l)).Nodup := by
  induction l with
  | nil => simp [dictInsert, dictKeys]
  | cons p rest ih =>
    obtain ⟨k0, v0⟩ := p
    simp only [dictKeys, List.map_cons, List.nodup_cons] at h
    by_cases h0 : k0 = k
    · subst h0
      have e : dictInsert k0 v ((k0, v0) :: rest) = (k0, v) :: rest := by
        simp [dictInsert]
      rw [e]
      simp only [dictKeys, List.map_cons, List.nodup_cons]
      exact ⟨by simpa [dictKeys] using h.1, by simpa [dictKeys] using h.2⟩
    · simp only [dictInsert, if_neg h0, dictKeys, List.map_cons, List.nodup_cons]
      refine ⟨?_, by simpa [dictKeys] using ih (by simpa [dictKeys] using h.2)⟩
      intro hmem
      rcases (mem_dictKeys_dictInsert k k0 v rest).mp (by simpa [dictKeys] using hmem) with
        hc | hc
      · exact h0 hc
      · exact h.1 (by simpa [dictKeys] using hc)

theorem dictCountKey_dictInsert_self {κ ν : Type} [DecidableEq κ] (k : κ) (v : ν)
    (l : List (κ × ν)) (h : (dictKeys l).Nodup) : dictCountKey k (dictInsert k v l) = 1 := by
  induction l with
  | nil => simp [dictInsert, dictCountKey]
  | cons p rest ih =>
    obtain ⟨k0, v0⟩ := p
    simp only [dictKeys, List.map_cons, List.nodup_cons] at h
    by_cases h0 : k0 = k
    · subst h0
      have e : dictInsert k0 v ((k0, v0) :: rest) = (k0, v) :: rest := by
        simp [dictInsert]
      rw [e]
      simp only [dictCountKey, List.filter_cons]
      rw [if_pos (by simp)]
      have h1 : dictCountKey k0 rest = 0 :=
        notMem_dictKeys_dictCountKey k0 rest (by simpa [dictKeys] using h.1)
      simpa [dictCountKey] using h1
    · simp only [dictInsert, if_neg h0, dictCountKey, List.filter_cons]
      rw [if_neg (by simpa using h0)]
      exact ih (by simpa [dictKeys] using h.2)

theorem dictLookup_dictErase_self {κ ν : Type} [DecidableEq κ] (k : κ)
    (l : List (κ × ν)) (h : (dictKeys l).Nodup) : dictLookup k (dictErase k l) = none := by
  induction l with
  | nil => simp [dictErase, dictLookup]
  | cons p rest ih =>
    obtain ⟨k0, v0⟩ := p
    simp only [dictKeys, List.map_cons, List.nodup_cons] at h
    by_cases h0 : k0 = k
    · subst h0
      rw [dictErase, if_pos rfl]
      exact dictLookup_eq_none_of_notMem k0 rest (by simpa [dictKeys] using h.1)
    · rw [dictErase, if_neg h0, dictLookup, if_neg h0]
      exact ih (by simpa [dictKeys] using h.2)

theorem dictLookup_dictErase_ne {κ ν : Type} [DecidableEq κ] (k k' : κ)
    (l : List (κ × ν)) (h : k ≠ k') : dictLookup k' (dictErase k l) = dictLookup k' l := by
  induction l with
  | nil => simp [dictErase]
  | cons p rest ih =>
    obtain ⟨k0, v0⟩ := p
    by_cases h0 : k0 = k
    · subst h0
      rw [dictErase, if_pos rfl, dictLookup, if_neg h]
    · rw [dictErase, if_neg h0, dictLookup, dictLookup]
      by_cases h1 : k0 = k'
      · simp [h1]
      · simp [h1, ih]

theorem dictKeys_dictErase_subset {κ ν : Type} [DecidableEq κ] (k : κ)
    (l : List (κ × ν)) : dictKeys (dictErase k l) ⊆ dictKeys l := by
  induction l with
  | nil => simp [dictErase]
  | cons p rest ih =>
    obtain ⟨k0, v0⟩ := p
    by_cases h0 : k0 = k
    · subst h0
      rw [dictErase, if_pos rfl]
      intro x hx
      simp only [dictKeys, List.map_cons, List.mem_cons]
      exact Or.inr (by simpa [dictKeys] using hx)
    · rw [dictErase, if_neg h0]
      intro x hx
      simp only [dictKeys, List.map_cons, List.mem_cons] at hx ⊢
      rcases hx with hc | hc
      · exact Or.inl hc
      · exact Or.inr (ih (by simpa [dictKeys] using hc))

theorem dictKeys_nodup_dictErase {κ ν : Type} [DecidableEq κ] (k : κ)
    (l : List (κ × ν)) (h : (dictKeys l).Nodup) : (dictKeys (dictErase k l)).Nodup := by
  induction l with
  | nil => simp [dictErase, dictKeys]
  | cons p rest ih =>
    obtain ⟨k0, v0⟩ := p
    simp only [dictKeys, List.map_cons, List.nodup_cons] at h
    by_cases h0 : k0 = k
    · subst h0
      rw [dictErase, if_pos rfl]
      exact h.2
    · rw [dictErase, if_neg h0]
      simp only [dictKeys, List.map_cons, List.nodup_cons]
      refine ⟨?_, by simpa [dictKeys] using ih (by simpa [dictKeys] using h.2)⟩
      intro hmem
      exact h.1 (by simpa [dictKeys] using
        dictKeys_dictErase_subset k rest (by simpa [dictKeys] using hmem))

/-! ## Duration parser (`travus_bot_base.parse_time`)

Embedding of `parse_time` from `src/travus_bot_base.py` (lines 420-443).
All failure modes are `ValueError` in Python; `TimeError` distinguishes them by
the message the source attaches (the `shutdown` command dispatches on these
messages). `invalidLiteral` is the `ValueError` raised by `int()` itself when a
digit group such as `"+-5"` cannot be converted. -/

inductive TimeError : Type
  | invalidChar
  | invalidLiteral
  | tooShort
  | tooLong
  deriving DecidableEq, Repr

/-- `t_frames` from the source: seconds per unit suffix (keys are compared
against `duration[c].lower()`). -/
def t_frames (c : Char) : Option Int :=
  if c = 'w' then some 604800
  else if c = 'd' then some 86400
  else if c = 'h' then some 3600
  else if c = 'm' then some 60
  else if c = 's' then some 1
  else none

/-- The explicit list `["+", "-", "0", ..., "9"]` of permitted non-unit
characters in the source's scan loop. -/
def validDigitSign (c : Char) : Bool :=
  c = '+' || c = '-' || c.isDigit

/-- Numeric value of a digit string (no sign). -/
def digitsToNat (s : List Char) : Nat :=
  s.foldl (fun n c => 10 * n + (c.toNat - '0'.toNat)) 0

/-- Python `int(s)` on the strings that can occur as digit groups here:
an optional single sign followed by at least one digit; anything else raises
`ValueError` (modelled as `none`). -/
def pyInt (s : List Char) : Option Int :=
  match s with
  | [] => none
  | '+' :: rest =>
    if rest ≠ [] ∧ rest.all Char.isDigit then some (digitsToNat rest) else none
  | '-' :: rest =>
    if rest ≠ [] ∧ rest.all Char.isDigit then some (-(digitsToNat rest : Int)) else none
  | _ =>
    if s.all Char.isDigit then some (digitsToNat s) else none

/-- The scan loop of `parse_time`: `chunk` is `duration[last:c]`, `total` is
`t_total`. A trailing digit group without a unit suffix is discarded, exactly
as in the source (the loop ends without converting it). -/
def parseTimeLoop : List Char → List Char → Int → Except TimeError Int
  | [], _chunk, total => .ok total
  | c :: rest, chunk, total =>
    match t_frames c.toLower with
    | some f =>
      if chunk = [] then parseTimeLoop rest [] total
      else
        match pyInt chunk with
        | some n => parseTimeLoop rest [] (total + n * f)
        | none => .error .invalidLiteral
    | none =>
      if validDigitSign c then parseTimeLoop rest (chunk ++ [c]) total
      else .error .invalidChar

/-- Python truthiness of the `minimum`/`maximum` parameters (default `None`):
`None` and `0` are falsy, so `if minimum and t_total < minimum:` skips the
check entirely for `minimum = 0`. -/
def pyTruthy (o : Option Int) : Bool :=
  match o with
  | none => false
  | some n => n != 0

/-- The `maximum` bound check at the end of `parse_time`. -/
def parseTimeMax (maximum : Option Int) (error_on_exceeded : Bool) (t : Int) :
    Except TimeError Int :=
  if pyTruthy maximum ∧ maximum.getD 0 < t then
    if error_on_exceeded then .error .tooLong else .ok (maximum.getD 0)
  else .ok t

/-- The `minimum` bound check of `parse_time`, followed by the `maximum`
check (after clamping, the clamped value is what the `maximum` check sees). -/
def parseTimeMin (minimum maximum : Option Int) (error_on_exceeded : Bool) (t : Int) :
    Except TimeError Int :=
  if pyTruthy minimum ∧ t < minimum.getD 0 then
    if error_on_exceeded then .error .tooShort
    else parseTimeMax maximum error_on_exceeded (minimum.getD 0)
  else parseTimeMax maximum error_on_exceeded t

/-- `parse_time(duration, minimum, maximum, error_on_exceeded)` from
`src/travus_bot_base.py`. -/
def parse_time (duration : String) (minimum maximum : Option Int)
    (error_on_exceeded : Bool) : Except TimeError Int :=
  match parseTimeLoop duration.data [] 0 with
  | .error e => .error e
  | .ok t => parseTimeMin minimum maximum error_on_exceeded t

/-- A character the scan loop recognises: a unit suffix (case-insensitively)
or a sign/digit. -/
def recognizedChar (c : Char) : Bool :=
  (t_frames c.toLower).isSome || validDigitSign c

/-- The spec's `InvalidFormat` failure class: a parse failure that is neither
`TooShort` nor `TooLong`. -/
def isInvalidFormat (e : TimeError) : Prop :=
  e = .invalidChar ∨ e = .invalidLiteral

theorem parseTimeLoop_error_of_unrecognized (cs : List Char) :
    ∀ (chunk : List Char) (total : Int), (∃ c ∈ cs, recognizedChar c = false) →
    ∃ e, parseTimeLoop cs chunk total = .error e ∧ isInvalidFormat e := by
  induction cs with
  | nil =>
    intro chunk total h
    obtain ⟨c, hc, _⟩ := h
    exact absurd hc (List.not_mem_nil c)
  | cons c rest ih =>
    intro chunk total h
    rw [parseTimeLoop]
    cases hf : t_frames c.toLower with
    | some f =>
      have hrec : recognizedChar c = true := by
        simp [recognizedChar, hf]
      have hrest : ∃ x ∈ rest, recognizedChar x = false := by
        obtain ⟨x, hx, hxr⟩ := h
        rcases List.mem_cons.mp hx with hx | hx
        · subst hx
          rw [hrec] at hxr
          exact absurd hxr (by simp)
        · exact ⟨x, hx, hxr⟩
      by_cases hchunk : chunk = []
      · simpa [hchunk] using ih [] total hrest
      · simp only [if_neg hchunk]
        cases pyInt chunk with
        | some n => exact ih [] (total + n * f) hrest
        | none => exact ⟨.invalidLiteral, rfl, Or.inr rfl⟩
    | none =>
      by_cases hv : validDigitSign c = true
      · have hrec : recognizedChar c = true := by
          simp [recognizedChar, hv]
        have hrest : ∃ x ∈ rest, recognizedChar x = false := by
          obtain ⟨x, hx, hxr⟩ := h
          rcases List.mem_cons.mp hx with hx | hx
          · subst hx
            rw [hrec] at hxr
            exact absurd hxr (by simp)
          · exact ⟨x, hx, hxr⟩
        simpa [hv] using ih (chunk ++ [c]) total hrest
      · simp only [Bool.not_eq_true] at hv
        exact ⟨.invalidChar, by simp [hv], Or.inl rfl⟩

/-- Claim C7 (code bug): `shutdown` calls `parse_time(countdown, 0, 86400, True)`
intending an inclusive `[0, 86400]` bound with errors on violation (its own
docstring: "the delay must be between 0 seconds and 24 hours"), but because
`minimum = 0` is falsy in Python, `if minimum and t_total < minimum:` skips the
check: the negative input `"-5s"` is accepted with total `-5` instead of
failing with `TooShort`. -/
theorem parse_time_shutdown_bounds_accept_negative :
    parse_time "-5s" (some 0) (some 86400) true = .ok (-5) := by
  rfl

/-- Claim C9: the duration parser's documented reference results: `"1d12h"`
parses to `129600` seconds; `"90s"` with bounds `[0, 60]` clamps to `60` in
clamp mode and fails with `TooLong` in error mode; and any input containing a
character the scanner does not recognise (not a sign, digit, or unit suffix
`w`/`d`/`h`/`m`/`s`, case-insensitively as the source lowercases before the
lookup) fails with an `InvalidFormat`-class error. -/
theorem parse_time_reference_results :
    parse_time "1d12h" none none true = .ok 129600 ∧
    parse_time "90s" (some 0) (some 60) false = .ok 60 ∧
    parse_time "90s" (some 0) (some 60) true = .error .tooLong ∧
    (∀ (s : String) (mn mx : Option Int) (err : Bool),
      (∃ c ∈ s.data, recognizedChar c = false) →
      ∃ e, parse_time s mn mx err = .error e ∧ isInvalidFormat e) := by
  refine ⟨by rfl, by rfl, by rfl, ?_⟩
  intro s mn mx err h
  obtain ⟨e, he, hfmt⟩ := parseTimeLoop_error_of_unrecognized s.data [] 0 h
  exact ⟨e, by rw [parse_time, he], hfmt⟩

/-- Witness for C9's quantified conjunct at the concrete input `"5x"`. -/
theorem parse_time_reference_results_witness :
    ∃ e, parse_time "5x" none none true = .error e ∧ isInvalidFormat e :=
  parse_time_reference_results.2.2.2 "5x" none none true
    ⟨'x', by decide, by decide⟩

/-! ## Message splitting (`travus_bot_base.split_long_messages`)

Embedding of `split_long_messages` from `src/travus_bot_base.py`
(lines 544-562), together with the Python string primitives it uses:
`text.split(delimiter)` (split on non-overlapping occurrences of a non-empty
separator string, left to right) and `str.rstrip(chars)` (remove trailing
characters drawn from the character SET `chars` — not trailing copies of the
string `chars`, which is the source of the multi-character-delimiter bug).
Texts are handled as `List Char` (`String.data`). -/

def pySplitGo (sep : List Char) (acc : List Char) (text : List Char) :
    List (List Char) :=
  if h : sep ≠ [] ∧ sep.isPrefixOf text then
    acc :: pySplitGo sep [] (text.drop sep.length)
  else
    match text with
    | [] => [acc]
    | c :: rest => pySplitGo sep (acc ++ [c]) rest
termination_by text.length
decreasing_by
  · have hpre : sep <+: text := by
      exact List.isPrefixOf_iff_prefix.mp h.2
    have h1 : 0 < sep.length := List.length_pos.mpr h.1
    have h2 : sep.length ≤ text.length := hpre.length_le
    simp only [List.length_drop]
    omega
  · simp

/-- Python `text.split(sep)` for a non-empty separator. -/
def pySplit (sep text : List Char) : List (List Char) :=
  pySplitGo sep [] text

/-- Python `s.rstrip(chars)`: strip from the right every character that is a
member of `chars`. -/
def pyRstrip (chars s : List Char) : List Char :=
  (s.reverse.dropWhile (fun c => decide (c ∈ chars))).reverse

/-- The `text_blocks` preparation of `split_long_messages`: split keeping the
delimiter appended to each block, then pop the last block and re-add it with
the delimiter stripped from its right. -/
def textBlocksOf (delimiter text : List Char) : List (List Char) :=
  ((pySplit delimiter text).map (fun content => content ++ delimiter)).dropLast ++
    [pyRstrip delimiter
      (((pySplit delimiter text).map (fun content => content ++ delimiter)).getLastD [])]

/-- The accumulation loop of `split_long_messages` (`message` is the block
being built; on overflow the current message is emitted and a fresh one is
started; a non-empty final message is emitted after the loop). -/
def packMessages (max_len : Nat) (message : List Char) :
    List (List Char) → List (List Char)
  | [] => if message.isEmpty then [] else [message]
  | block :: rest =>
    if block.length + message.length < max_len then
      packMessages max_len (message ++ block) rest
    else
      message :: packMessages max_len block rest

/-- `split_long_messages(text, max_len, delimiter)` over `List Char`; the final
step is the source's `if "" in messages: messages.remove("")`. -/
def splitLongMessagesCore (text : List Char) (max_len : Nat) (delimiter : List Char) :
    List (List Char) :=
  if [] ∈ packMessages max_len [] (textBlocksOf delimiter text) then
    (packMessages max_len [] (textBlocksOf delimiter text)).erase []
  else
    packMessages max_len [] (textBlocksOf delimiter text)

/-- `split_long_messages` at the `String` level, matching the source
signature. -/
def split_long_messages (text : String) (max_len : Nat) (delimiter : String) :
    List String :=
  (splitLongMessagesCore text.data max_len delimiter.data).map (fun l => String.mk l)

theorem pySplitGo_ne_nil (sep acc text : List Char) : pySplitGo sep acc text ≠ [] := by
  induction acc, text using pySplitGo.induct sep with
  | case1 acc text h ih =>
    rw [pySplitGo, dif_pos h]
    simp
  | case2 acc h h2 =>
    rw [pySplitGo, dif_neg h]
    simp
  | case3 acc c rest h h2 ih =>
    rw [pySplitGo, dif_neg h]
    simpa using ih

theorem pySplitGo_join (sep : List Char) (hsep : sep ≠ []) (acc text : List Char) :
    ((pySplitGo sep acc text).map (fun p => p ++ sep)).flatten = acc ++ text ++ sep := by
  induction acc, text using pySplitGo.induct sep with
  | case1 acc text h ih =>
    rw [pySplitGo, dif_pos h]
    obtain ⟨t, ht⟩ := List.isPrefixOf_iff_prefix.mp h.2
    have hdrop : text.drop sep.length = t := by
      rw [← ht, List.drop_left]
    rw [List.map_cons, List.flatten_cons, ih, hdrop, ← ht]
    simp
  | case2 acc h h2 =>
    rw [pySplitGo, dif_neg h]
    simp
  | case3 acc c rest h h2 ih =>
    rw [pySplitGo, dif_neg h]
    simpa using ih

theorem pySplitGo_no_sep_char (c : Char) (acc text : List Char) (hacc : c ∉ acc) :
    ∀ p ∈ pySplitGo [c] acc text, c ∉ p := by
  induction acc, text using pySplitGo.induct [c] with
  | case1 acc text h ih =>
    rw [pySplitGo, dif_pos h]
    intro p hp
    rcases List.mem_cons.mp hp with hp | hp
    · subst hp
      exact hacc
    · exact ih (List.not_mem_nil c) p hp
  | case2 acc h h2 =>
    rw [pySplitGo, dif_neg h]
    intro p hp
    rcases List.mem_singleton.mp hp with rfl
    exact hacc
  | case3 acc d rest h h2 ih =>
    rw [pySplitGo, dif_neg h]
    have hdc : d ≠ c := by
      intro hdc
      subst hdc
      exact h ⟨by simp, by simp [List.isPrefixOf]⟩
    intro p hp
    refine ih ?_ p hp
    intro hmem
    rcases List.mem_append.mp hmem with hm | hm
    · exact hacc hm
    · exact hdc (List.mem_singleton.mp hm).symm

theorem getLastD_default_irrel {α : Type} (l : List α) (d1 d2 : α) (h : l ≠ []) :
    l.getLastD d1 = l.getLastD d2 := by
  cases l with
  | nil => exact absurd rfl h
  | cons x xs => rw [List.getLastD_cons, List.getLastD_cons]

theorem flatten_dropLast_getLastD (l : List (List Char)) (h : l ≠ []) :
    l.dropLast.flatten ++ l.getLastD [] = l.flatten := by
  induction l with
  | nil => exact absurd rfl h
  | cons b rest ih =>
    cases hr : rest with
    | nil => simp
    | cons b2 rest2 =>
      subst hr
      have ih2 := ih (by simp)
      simp only [List.getLastD_cons] at ih2 ⊢
      rw [List.dropLast_cons_of_ne_nil (show b2 :: rest2 ≠ ([] : List (List Char)) by simp),
        List.flatten_cons, List.flatten_cons, List.append_assoc, ih2]

theorem getLastD_map_append (sep : List Char) (l : List (List Char)) (h : l ≠ []) :
    (l.map (fun p => p ++ sep)).getLastD [] = l.getLastD [] ++ sep := by
  induction l with
  | nil => exact absurd rfl h
  | cons b rest ih =>
    cases hr : rest with
    | nil => simp
    | cons b2 rest2 =>
      subst hr
      have ih2 := ih (by simp)
      simp only [List.map_cons, List.getLastD_cons] at ih2 ⊢
      exact ih2

theorem getLastD_mem {α : Type} (l : List α) (d : α) (h : l ≠ []) : l.getLastD d ∈ l := by
  induction l generalizing d with
  | nil => exact absurd rfl h
  | cons b rest ih =>
    cases hr : rest with
    | nil => simp
    | cons b2 rest2 =>
      subst hr
      rw [List.getLastD_cons]
      exact List.mem_cons_of_mem b (ih b (by simp))

theorem pyRstrip_append_single (c : Char) (p : List Char) (h : c ∉ p) :
    pyRstrip [c] (p ++ [c]) = p := by
  rw [pyRstrip, List.reverse_append]
  simp only [List.reverse_cons, List.reverse_nil, List.nil_append, List.singleton_append]
  rw [List.dropWhile_cons_of_pos (by simp)]
  cases hp : p.reverse with
  | nil =>
    have hpn : p = [] := by simpa using congrArg List.reverse hp
    simp [hpn]
  | cons d tail =>
    have hd : d ∈ p := by
      have hdr : d ∈ p.reverse := by
        rw [hp]
        exact List.mem_cons_self d tail
      simpa using hdr
    rw [List.dropWhile_cons_of_neg (by
      simp only [List.mem_singleton, decide_eq_true_eq]
      exact fun hc => h (hc ▸ hd))]
    rw [← hp, List.reverse_reverse]

theorem packMessages_flatten (max_len : Nat) (blocks : List (List Char)) :
    ∀ message : List Char,
    (packMessages max_len message blocks).flatten = message ++ blocks.flatten := by
  induction blocks with
  | nil =>
    intro message
    by_cases h : message.isEmpty
    · simp [packMessages, h, List.isEmpty_iff.mp h]
    · simp [packMessages, h]
  | cons b rest ih =>
    intro message
    rw [packMessages]
    by_cases h : b.length + message.length < max_len
    · rw [if_pos h, ih]
      simp
    · rw [if_neg h]
      simp [ih]

theorem flatten_erase_nil (l : List (List Char)) : (l.erase []).flatten = l.flatten := by
  induction l with
  | nil => simp
  | cons b rest ih =>
    rw [List.erase_cons]
    by_cases h : b = []
    · simp [h]
    · rw [if_neg (by simpa using h)]
      simp [ih]

theorem splitLongMessagesCore_flatten_single (text : List Char) (max_len : Nat) (c : Char) :
    (splitLongMessagesCore text max_len [c]).flatten = text := by
  have hstep : (splitLongMessagesCore text max_len [c]).flatten =
      (packMessages max_len [] (textBlocksOf [c] text)).flatten := by
    rw [splitLongMessagesCore]
    split
    · exact flatten_erase_nil _
    · rfl
  rw [hstep, packMessages_flatten, List.nil_append]
  have hpieces : pySplit [c] text ≠ [] := pySplitGo_ne_nil [c] [] text
  have hblocks : (pySplit [c] text).map (fun content => content ++ [c]) ≠ [] := by
    simpa using hpieces
  have hlastblock : ((pySplit [c] text).map (fun content => content ++ [c])).getLastD [] =
      (pySplit [c] text).getLastD [] ++ [c] :=
    getLastD_map_append [c] (pySplit [c] text) hpieces
  have hnoc : c ∉ (pySplit [c] text).getLastD [] :=
    pySplitGo_no_sep_char c [] text (List.not_mem_nil c) _
      (getLastD_mem (pySplit [c] text) [] hpieces)
  have hjoinblocks : ((pySplit [c] text).map (fun content => content ++ [c])).flatten =
      text ++ [c] := by
    simpa using pySplitGo_join [c] (by simp) [] text
  have hsplit : ((pySplit [c] text).map (fun content => content ++ [c])).dropLast.flatten ++
      ((pySplit [c] text).map (fun content => content ++ [c])).getLastD [] =
      text ++ [c] := by
    rw [flatten_dropLast_getLastD _ hblocks, hjoinblocks]
  rw [hlastblock, ← List.append_assoc] at hsplit
  have hcancel : ((pySplit [c] text).map (fun content => content ++ [c])).dropLast.flatten ++
      (pySplit [c] text).getLastD [] = text :=
    List.append_cancel_right hsplit
  rw [textBlocksOf]
  rw [List.flatten_append, List.flatten_cons, List.flatten_nil, List.append_nil]
  rw [hlastblock, pyRstrip_append_single c _ hnoc]
  exact hcancel

theorem string_mk_append (a b : List Char) : String.mk a ++ String.mk b = String.mk (a ++ b) :=
  rfl

theorem string_foldl_append_mk (ls : List (List Char)) :
    ∀ acc : List Char,
    List.foldl (fun r s => r ++ s) (String.mk acc) (ls.map (fun l => String.mk l)) =
      String.mk (acc ++ ls.flatten) := by
  induction ls with
  | nil =>
    intro acc
    simp
  | cons l rest ih =>
    intro acc
    rw [List.map_cons, List.foldl_cons, string_mk_append, ih, List.flatten_cons,
      List.append_assoc]

theorem string_join_map_mk (ls : List (List Char)) :
    String.join (ls.map (fun l => String.mk l)) = String.mk ls.flatten := by
  have h := string_foldl_append_mk ls []
  rw [List.nil_append] at h
  exact h

/-- Claim C10 (amended): for every text, maximum length, and SINGLE-CHARACTER
delimiter, concatenating (in order) the parts returned by
`split_long_messages` yields exactly the original text.  (For multi-character
delimiters the claim fails, because the final `rstrip(delimiter)` strips by
character set; see the counterexample.) -/
theorem split_long_messages_concat_single (text : String) (max_len : Nat) (c : Char) :
    String.join (split_long_messages text max_len (String.singleton c)) = text := by
  rw [split_long_messages, string_join_map_mk]
  rw [show (String.singleton c).data = [c] from rfl]
  rw [splitLongMessagesCore_flatten_single]

/-- Claim C10 counterexample: with the two-character delimiter `", "` the
parts of `"hi, you "` concatenate to `"hi, you"` — the trailing space is lost
(`"you , ".rstrip(", ")` also strips the space belonging to the text), so the
claim is false as stated for arbitrary delimiters. -/
theorem split_long_messages_concat_counterexample :
    String.join (split_long_messages "hi, you " 1950 ", ") ≠ "hi, you " := by
  have h : split_long_messages "hi, you " 1950 ", " = ["hi, you"] := by
    simp [split_long_messages, splitLongMessagesCore, textBlocksOf, pySplit, pySplitGo,
      pyRstrip, packMessages]
  rw [h]
  decide

/-! ## Command state machine (`update_command_states`, `command enable/disable`)

Embedding of `TravusBotBase.update_command_states` (`src/travus_bot_base.py`
lines 302-321) and of the `command enable`/`command disable` subcommands with
their helpers `_command_get_state`/`_command_set_state`
(`src/core_commands.py` lines 261-311).

A live command object carries its name, the class name of its owning cog, and
the two live flags.  The persisted `command_states` table is keyed by
`cog_com_name` (`Cog.name` or bare `name`). -/

structure BotCommand where
  name : String
  cogName : Option String
  enabled : Bool
  hidden : Bool
deriving DecidableEq, Repr

/-- `f"{command.cog.__class__.__name__ + '.' if command.cog else ''}{command.name}"` -/
def cog_com_name (command : BotCommand) : String :=
  (match command.cogName with
   | some cog => cog ++ "."
   | none => "") ++ command.name

/-- The state-application branches of `update_command_states`.  `state = none`
models the `(0,)` tuple the source assigns when no row exists: it compares
unequal to `1`, `2` and `3`, so no branch fires.  NOTE the source has no
branch for state `0` either — states `0`/missing leave the live flags
untouched. -/
def applyCommandState (state : Option Nat) (command : BotCommand) : BotCommand :=
  if state = some 1 then ⟨command.name, command.cogName, true, true⟩
  else if state = some 2 then ⟨command.name, command.cogName, false, false⟩
  else if state = some 3 then ⟨command.name, command.cogName, false, true⟩
  else command

/-- `update_command_states`: for every registered command, fetch the persisted
state (inserting a default row `0` when absent) and update the live flags per
the branches above. -/
def update_command_states :
    List BotCommand → List (String × Nat) → List BotCommand × List (String × Nat)
  | [], db => ([], db)
  | command :: rest, db =>
    match dictLookup (cog_com_name command) db with
    | none =>
      let step := update_command_states rest (dictInsert (cog_com_name command) 0 db)
      (applyCommandState none command :: step.1, step.2)
    | some s =>
      let step := update_command_states rest db
      (applyCommandState (some s) command :: step.1, step.2)

theorem applyCommandState_zero_eq_none (command : BotCommand) :
    applyCommandState (some 0) command = applyCommandState none command := by
  simp [applyCommandState]

theorem update_command_states_flags (cmds : List BotCommand) :
    ∀ db : List (String × Nat),
    (update_command_states cmds db).1 =
      cmds.map (fun command => applyCommandState (dictLookup (cog_com_name command) db) command) := by
  induction cmds with
  | nil => intro db; rfl
  | cons command rest ih =>
    intro db
    rw [update_command_states]
    cases hdb : dictLookup (cog_com_name command) db with
    | none =>
      simp only [List.map_cons, hdb]
      congr 1
      rw [ih]
      refine List.map_congr_left ?_
      intro c hc
      by_cases hk : cog_com_name c = cog_com_name command
      · rw [hk, dictLookup_dictInsert_self, hdb, applyCommandState_zero_eq_none]
      · rw [dictLookup_dictInsert_ne _ _ _ _ (fun hcontra => hk hcontra.symm)]
    | some s =>
      simp only [List.map_cons, hdb]
      congr 1
      exact ih db

theorem update_command_states_db (cmds : List BotCommand) :
    ∀ (db : List (String × Nat)) (key : String),
    dictLookup key (update_command_states cmds db).2 =
      (match dictLookup key db with
       | some s => some s
       | none => if key ∈ cmds.map cog_com_name then some 0 else none) := by
  induction cmds with
  | nil =>
    intro db key
    rw [update_command_states]
    cases hkey : dictLookup key db <;> simp
  | cons command rest ih =>
    intro db key
    rw [update_command_states]
    cases hdb : dictLookup (cog_com_name command) db with
    | none =>
      simp only []
      rw [ih]
      by_cases hk : key = cog_com_name command
      · subst hk
        rw [dictLookup_dictInsert_self, hdb]
        simp
      · rw [dictLookup_dictInsert_ne _ _ _ _ (fun hcontra => hk hcontra.symm)]
        cases hkey : dictLookup key db with
        | some s => rfl
        | none => simp [hk]
    | some s =>
      simp only []
      rw [ih]
      by_cases hk : key = cog_com_name command
      · subst hk
        rw [hdb]
      · cases hkey : dictLookup key db with
        | some s2 => rfl
        | none => simp [hk]

/-- Claim C4 (amended): after `update_command_states` runs, every command's
live flags are transformed by `applyCommandState` of its persisted state —
states 1, 2, 3 overwrite the flags to hidden+enabled, visible+disabled and
hidden+disabled respectively, while state 0 and missing rows leave the live
flags UNCHANGED (not reset to the visible+enabled projection); every command
that had no persisted row gets a default row with state 0 written, and
pre-existing rows keep their values. -/
theorem update_command_states_applyAll (cmds : List BotCommand) (db : List (String × Nat)) :
    ((update_command_states cmds db).1 =
      cmds.map (fun c => applyCommandState (dictLookup (cog_com_name c) db) c)) ∧
    (∀ key : String, key ∈ cmds.map cog_com_name → dictLookup key db = none →
      dictLookup key (update_command_states cmds db).2 = some 0) ∧
    (∀ (key : String) (s : Nat), dictLookup key db = some s →
      dictLookup key (update_command_states cmds db).2 = some s) := by
  refine ⟨update_command_states_flags cmds db, ?_, ?_⟩
  · intro key hmem hnone
    rw [update_command_states_db, hnone, if_pos hmem]
  · intro key s hs
    rw [update_command_states_db, hs]

/-- Witness for C4's amended theorem: a freshly registered command with no
row gets a default row with state 0. -/
theorem update_command_states_applyAll_witness :
    dictLookup "foo" (update_command_states [⟨"foo", none, true, false⟩] []).2 = some 0 :=
  (update_command_states_applyAll [⟨"foo", none, true, false⟩] []).2.1 "foo"
    (by simp [cog_com_name]) rfl

/-- Claim C4 counterexample: a command whose persisted state is 0 but whose
live `hidden` flag is `true` before the call keeps `hidden = true` afterwards;
the claim's required projection of state 0 is visible+enabled
(`hidden = false`), so the live flags do NOT equal the projection of the
persisted state for every starting flag value. -/
theorem update_command_states_state0_counterexample :
    dictLookup "foo" [("foo", 0)] = some 0 ∧
    (update_command_states [⟨"foo", none, true, true⟩] [("foo", 0)]).1 =
      [⟨"foo", none, true, true⟩] :=
  ⟨rfl, rfl⟩

/-! ### `command enable` / `command disable` (`core_commands.py` 261-311)

`all_commands` is discord.py's name → command mapping, `command_states` the
persisted table, `helpCategories` the bot help registry reduced to the
category field (`self.bot.help[name].category`), which the disable command
uses for core-protection.  `dictUpdate` is the SQL `UPDATE ... WHERE`
(replace on every matching row, no insertion). -/

def dictUpdate {κ ν : Type} [DecidableEq κ] (k : κ) (v : ν) : List (κ × ν) → List (κ × ν)
  | [] => []
  | (k', v') :: rest =>
    if k' = k then (k', v) :: dictUpdate k v rest else (k', v') :: dictUpdate k v rest

theorem dictLookup_dictUpdate_self {κ ν : Type} [DecidableEq κ] (k : κ) (v : ν)
    (l : List (κ × ν)) (w : ν) (h : dictLookup k l = some w) :
    dictLookup k (dictUpdate k v l) = some v := by
  induction l with
  | nil => exact absurd h (by simp [dictLookup])
  | cons p rest ih =>
    obtain ⟨k0, v0⟩ := p
    by_cases h0 : k0 = k
    · simp [dictUpdate, dictLookup, h0]
    · rw [dictLookup, if_neg h0] at h
      simp only [dictUpdate, if_neg h0]
      rw [dictLookup, if_neg h0]
      exact ih h

def dictModify {κ ν : Type} [DecidableEq κ] (k : κ) (f : ν → ν) : List (κ × ν) → List (κ × ν)
  | [] => []
  | (k', v) :: rest =>
    if k' = k then (k', f v) :: rest else (k', v) :: dictModify k f rest

theorem dictLookup_dictModify_self {κ ν : Type} [DecidableEq κ] (k : κ) (f : ν → ν)
    (l : List (κ × ν)) : dictLookup k (dictModify k f l) = (dictLookup k l).map f := by
  induction l with
  | nil => simp [dictModify, dictLookup]
  | cons p rest ih =>
    obtain ⟨k0, v0⟩ := p
    by_cases h0 : k0 = k
    · simp [dictModify, dictLookup, h0]
    · simp [dictModify, dictLookup, h0, ih]

/-- `self.bot.all_commands[command_name].enabled = b` on the command object. -/
def setEnabled (b : Bool) (c : BotCommand) : BotCommand :=
  ⟨c.name, c.cogName, b, c.hidden⟩

structure CommandOpState where
  all_commands : List (String × BotCommand)
  command_states : List (String × Nat)
  helpCategories : List (String × String)
  messages : List String
deriving Repr

/-- `_command_get_state`: read the persisted state, inserting a default row 0
when absent (lazy default). -/
def _command_get_state (command : BotCommand) (db : List (String × Nat)) :
    Nat × List (String × Nat) :=
  match dictLookup (cog_com_name command) db with
  | some s => (s, db)
  | none => (0, dictInsert (cog_com_name command) 0 db)

/-- `_command_set_state`: `UPDATE command_states SET state = ? WHERE command = ?`. -/
def _command_set_state (command : BotCommand) (state : Nat) (db : List (String × Nat)) :
    List (String × Nat) :=
  dictUpdate (cog_com_name command) state db

/-- The core-protection test of `command disable`:
`command_name in self.bot.help.keys() and self.bot.help[command_name].category.lower() == "core"`. -/
def isCoreProtected (st : CommandOpState) (command_name : String) : Bool :=
  match dictLookup command_name st.helpCategories with
  | some category => category.toLower == "core"
  | none => false

/-- `command enable <COMMAND NAME>`. -/
def command_enable (command_name : String) (st : CommandOpState) : CommandOpState :=
  match dictLookup command_name st.all_commands with
  | none =>
    ⟨st.all_commands, st.command_states, st.helpCategories,
      st.messages ++ ["No command found."]⟩
  | some command =>
    let fetched := _command_get_state command st.command_states
    if command.enabled then
      ⟨st.all_commands, fetched.2, st.helpCategories,
        st.messages ++ ["The command is already enabled."]⟩
    else
      ⟨dictModify command_name (setEnabled true) st.all_commands,
        _command_set_state command (if fetched.1 = 2 then 0 else 1) fetched.2,
        st.helpCategories,
        st.messages ++ ["The command is now enabled."]⟩

/-- `command disable <COMMAND NAME>`. -/
def command_disable (command_name : String) (st : CommandOpState) : CommandOpState :=
  match dictLookup command_name st.all_commands with
  | none =>
    ⟨st.all_commands, st.command_states, st.helpCategories,
      st.messages ++ ["No command found."]⟩
  | some command =>
    let fetched := _command_get_state command st.command_states
    if isCoreProtected st command_name then
      ⟨st.all_commands, fetched.2, st.helpCategories,
        st.messages ++ ["Core commands cannot be disabled."]⟩
    else if command.enabled = false then
      ⟨st.all_commands, fetched.2, st.helpCategories,
        st.messages ++ ["The command is already disabled."]⟩
    else
      ⟨dictModify command_name (setEnabled false) st.all_commands,
        _command_set_state command (if fetched.1 = 0 then 2 else 3) fetched.2,
        st.helpCategories,
        st.messages ++ ["The command is now disabled."]⟩

theorem cog_com_name_setEnabled (b : Bool) (c : BotCommand) :
    cog_com_name (setEnabled b c) = cog_com_name c := rfl

theorem setEnabled_enabled (b : Bool) (c : BotCommand) : (setEnabled b c).enabled = b := rfl

theorem setEnabled_roundtrip (c : BotCommand) (h : c.enabled = true) :
    setEnabled true (setEnabled false c) = c := by
  cases c
  simp only [setEnabled]
  simp_all

/-- Claim C6 (amended): for a command whose persisted state is consistent with
its live `enabled = true` flag (state 0 or 1), `command disable` followed by
`command enable` restores the original persisted state and the original live
flags (the hidden bit is never touched and the command ends enabled).  For the
divergent starting states 2 and 3 (persisted "disabled" while live-enabled)
the round trip instead ends in persisted state 1 — see the counterexample. -/
theorem command_disable_enable_round_trip
    (st : CommandOpState) (command_name : String) (command : BotCommand) (s : Nat)
    (hcmd : dictLookup command_name st.all_commands = some command)
    (henabled : command.enabled = true)
    (hcore : isCoreProtected st command_name = false)
    (hstate : dictLookup (cog_com_name command) st.command_states = some s)
    (hs : s = 0 ∨ s = 1) :
    dictLookup (cog_com_name command)
      (command_enable command_name (command_disable command_name st)).command_states = some s ∧
    dictLookup command_name
      (command_enable command_name (command_disable command_name st)).all_commands =
      some command := by
  have hdis : command_disable command_name st =
      ⟨dictModify command_name (setEnabled false) st.all_commands,
        _command_set_state command (if s = 0 then 2 else 3) st.command_states,
        st.helpCategories,
        st.messages ++ ["The command is now disabled."]⟩ := by
    rw [command_disable, hcmd]
    simp only [_command_get_state, hstate, hcore, henabled, Bool.false_eq_true,
      Bool.true_eq_false, if_false]
  have hlookup1 : dictLookup command_name
      (dictModify command_name (setEnabled false) st.all_commands) =
      some (setEnabled false command) := by
    rw [dictLookup_dictModify_self, hcmd]
    rfl
  have hstate1 : dictLookup (cog_com_name command)
      (_command_set_state command (if s = 0 then 2 else 3) st.command_states) =
      some (if s = 0 then 2 else 3) :=
    dictLookup_dictUpdate_self _ _ _ _ hstate
  have hen : command_enable command_name (command_disable command_name st) =
      ⟨dictModify command_name (setEnabled true)
          (dictModify command_name (setEnabled false) st.all_commands),
        _command_set_state (setEnabled false command)
          (if (if s = 0 then 2 else 3) = 2 then 0 else 1)
          (_command_set_state command (if s = 0 then 2 else 3) st.command_states),
        st.helpCategories,
        (st.messages ++ ["The command is now disabled."]) ++
          ["The command is now enabled."]⟩ := by
    rw [hdis, command_enable]
    dsimp only
    simp only [hlookup1, _command_get_state, cog_com_name_setEnabled, hstate1,
      setEnabled_enabled, Bool.false_eq_true, if_false]
  rw [hen]
  dsimp only
  constructor
  · have hkey : cog_com_name (setEnabled false command) = cog_com_name command :=
      cog_com_name_setEnabled false command
    have hfinal : dictLookup (cog_com_name command)
        (_command_set_state (setEnabled false command)
          (if (if s = 0 then 2 else 3) = 2 then 0 else 1)
          (_command_set_state command (if s = 0 then 2 else 3) st.command_states)) =
        some (if (if s = 0 then 2 else 3) = 2 then 0 else 1) := by
      rw [_command_set_state, hkey]
      exact dictLookup_dictUpdate_self _ _ _ _ hstate1
    rw [hfinal]
    rcases hs with hs | hs <;> subst hs <;> rfl
  · rw [dictLookup_dictModify_self, hlookup1]
    rw [show Option.map (setEnabled true) (some (setEnabled false command)) =
      some (setEnabled true (setEnabled false command)) from rfl]
    rw [setEnabled_roundtrip command henabled]

/-- Witness for C6's amended theorem at a concrete state-0 command. -/
theorem command_disable_enable_round_trip_witness :
    dictLookup "c" (command_enable "c" (command_disable "c"
      ⟨[("c", ⟨"c", none, true, false⟩)], [("c", 0)], [], []⟩)).command_states = some 0 ∧
    dictLookup "c" (command_enable "c" (command_disable "c"
      ⟨[("c", ⟨"c", none, true, false⟩)], [("c", 0)], [], []⟩)).all_commands =
      some ⟨"c", none, true, false⟩ :=
  command_disable_enable_round_trip
    ⟨[("c", ⟨"c", none, true, false⟩)], [("c", 0)], [], []⟩ "c" ⟨"c", none, true, false⟩ 0
    rfl rfl rfl rfl (Or.inl rfl)

/-- Claim C6 counterexample: starting from persisted state 2 with the command
live-enabled (a divergent but reachable combination, since state 0/missing
rows never overwrite live flags), disable-then-enable ends in persisted state
1, not the starting state 2 — the hidden bit of the persisted state flips from
visible to hidden. -/
theorem command_round_trip_state2_counterexample :
    dictLookup "c" (command_enable "c" (command_disable "c"
      ⟨[("c", ⟨"c", none, true, false⟩)], [("c", 2)], [], []⟩)).command_states = some 1 ∧
    ¬ dictLookup "c" (command_enable "c" (command_disable "c"
      ⟨[("c", ⟨"c", none, true, false⟩)], [("c", 2)], [], []⟩)).command_states = some 2 :=
  ⟨rfl, by decide⟩

/-! ## Extension registry (`CoreFunctionalityCog._module_operation`)

Embedding of the `load` path of `_module_operation` (`src/core_commands.py`
lines 51-97).  `bot.help` and `bot.modules` are the metadata maps (values
reduced to opaque `String` payloads — only map equality matters here);
`last_module_error` is the single overwritable error slot behind the
`module error` command; `messages` records what is sent to the invoking
context.

The package's registration entry point (`self.bot.load_extension`, which runs
the module's `setup` against the bot) is modelled as a function that returns
the (possibly partially) mutated metadata maps together with an optional
exception — in Python an exception does not undo mutations already applied,
which is exactly why the source snapshots `old_help`/`old_modules` first. -/

inductive LoadException : Type
  | alreadyLoaded
  | failure (text : String)
deriving DecidableEq, Repr

structure ModuleRegistry where
  help : List (String × String)
  modules : List (String × String)
  last_module_error : Option String
  messages : List String
deriving DecidableEq, Repr

/-- The constant text of
`"**Error! Something went really wrong! Contact module maintainer.**..."` —
a fixed string carrying no detail of the exception. -/
def genericLoadErrorMessage : String :=
  "Error! Something went really wrong! Contact module maintainer. " ++
    "Error printed to console and stored in module error command."

/-- `self.bot.last_module_error = f"The `{mod}` module failed while loading. The error was: {e}"` -/
def errorSlotText (mod e : String) : String :=
  "The " ++ mod ++ " module failed while loading. The error was: " ++ e

/-- The `load` branch of `_module_operation`: snapshot the metadata, run the
registration entry point, and on an arbitrary exception restore the snapshot,
store the error text in the single slot and send only the generic message. -/
def module_operation_load
    (onDisk : Bool)
    (setup : List (String × String) × List (String × String) →
      (List (String × String) × List (String × String)) × Option LoadException)
    (mod : String) (bot : ModuleRegistry) : ModuleRegistry :=
  let old_help := bot.help
  let old_modules := bot.modules
  if onDisk then
    match setup (bot.help, bot.modules) with
    | ((newHelp, newModules), none) =>
      ⟨newHelp, newModules, bot.last_module_error,
        bot.messages ++ ["Module " ++ mod ++ " successfully loaded."]⟩
    | ((newHelp, newModules), some .alreadyLoaded) =>
      ⟨newHelp, newModules, bot.last_module_error,
        bot.messages ++ ["The " ++ mod ++ " module was already loaded."]⟩
    | (_, some (.failure e)) =>
      ⟨old_help, old_modules, some (errorSlotText mod e),
        bot.messages ++ [genericLoadErrorMessage]⟩
  else
    ⟨bot.help, bot.modules, bot.last_module_error,
      bot.messages ++ ["No " ++ mod ++ " module was found."]⟩

/-- Claim C5: if the registration entry point raises (after arbitrary partial
mutation of the metadata maps), the help map and module info map after the
failed load equal their pre-attempt values, the error text lands in the single
overwritable `last_module_error` slot, and the only message sent to the caller
is the fixed generic one, which contains no detail of the exception. -/
theorem module_operation_load_rollback
    (bot : ModuleRegistry) (mod : String)
    (setup : List (String × String) × List (String × String) →
      (List (String × String) × List (String × String)) × Option LoadException)
    (partialHelp partialModules : List (String × String)) (e : String)
    (hsetup : setup (bot.help, bot.modules) =
      ((partialHelp, partialModules), some (.failure e))) :
    (module_operation_load true setup mod bot).help = bot.help ∧
    (module_operation_load true setup mod bot).modules = bot.modules ∧
    (module_operation_load true setup mod bot).last_module_error =
      some (errorSlotText mod e) ∧
    (module_operation_load true setup mod bot).messages =
      bot.messages ++ [genericLoadErrorMessage] := by
  rw [module_operation_load]
  simp only [hsetup, if_true]
  exact ⟨trivial, trivial, trivial, trivial⟩

/-- Witness for C5 at a concrete crashing entry point that first clobbers the
metadata maps. -/
theorem module_operation_load_rollback_witness :
    (module_operation_load true
      (fun _ => ((([("x", "y")], []) : List (String × String) × List (String × String)),
        some (.failure "boom")))
      "fun" ⟨[("help1", "h")], [("mod1", "m")], none, []⟩).help = [("help1", "h")] ∧
    (module_operation_load true
      (fun _ => ((([("x", "y")], []) : List (String × String) × List (String × String)),
        some (.failure "boom")))
      "fun" ⟨[("help1", "h")], [("mod1", "m")], none, []⟩).modules = [("mod1", "m")] ∧
    (module_operation_load true
      (fun _ => ((([("x", "y")], []) : List (String × String) × List (String × String)),
        some (.failure "boom")))
      "fun" ⟨[("help1", "h")], [("mod1", "m")], none, []⟩).last_module_error =
      some (errorSlotText "fun" "boom") ∧
    (module_operation_load true
      (fun _ => ((([("x", "y")], []) : List (String × String) × List (String × String)),
        some (.failure "boom")))
      "fun" ⟨[("help1", "h")], [("mod1", "m")], none, []⟩).messages =
      [genericLoadErrorMessage] :=
  module_operation_load_rollback ⟨[("help1", "h")], [("mod1", "m")], none, []⟩ "fun"
    (fun _ => ((([("x", "y")], []) : List (String × String) × List (String × String)),
      some (.failure "boom")))
    [("x", "y")] [] "boom" rfl

/-! ## Mute scheduler (`modules/moderation.py`)

Embedding of the `mute`/`unmute` commands and the `auto_unmuter` sweep.
`mutes` is the in-memory dict keyed `(guild_id, member_id)` with value the
expiry timestamp (`none` = indefinite); `mutesDb` is the `mutes` table, which
has `PRIMARY KEY(guild, muted_user)` and is updated by
`INSERT ... ON CONFLICT DO UPDATE` (an upsert — `dictInsert`) and
`DELETE ... WHERE guild = $1 AND muted_user = $2` (`sqlDeleteKey`, removing
every matching row).  Timestamps are `Int`.

The platform directory and delivery calls of the sweep are abstracted into
`MuteEnv`: `getGuild` is `bot.get_guild`, `Guild.getMember` is
`guild.get_member`, `muteRole` is `_get_mute_role` for a member of the given
guild (covering a missing/invalid `mute_role` config and a deleted role),
`removeRolesResult` is the outcome of `member.remove_roles(mute_role)`, and
`alert_channel` is `_get_alert_channel()`. -/

/-- SQL `DELETE FROM t WHERE key = k`: removes every row with that key. -/
def sqlDeleteKey {κ ν : Type} [DecidableEq κ] (k : κ) (l : List (κ × ν)) : List (κ × ν) :=
  l.filter (fun p => decide (p.1 ≠ k))

theorem dictLookup_sqlDeleteKey_self {κ ν : Type} [DecidableEq κ] (k : κ)
    (l : List (κ × ν)) : dictLookup k (sqlDeleteKey k l) = none := by
  induction l with
  | nil => simp [sqlDeleteKey, dictLookup]
  | cons p rest ih =>
    obtain ⟨k0, v0⟩ := p
    by_cases h0 : k0 = k
    · simpa [sqlDeleteKey, List.filter_cons, h0] using ih
    · simp only [sqlDeleteKey, List.filter_cons] at ih ⊢
      rw [if_pos (by simpa using h0), dictLookup, if_neg h0]
      exact ih

theorem dictLookup_sqlDeleteKey_ne {κ ν : Type} [DecidableEq κ] (k k' : κ)
    (l : List (κ × ν)) (h : k ≠ k') :
    dictLookup k' (sqlDeleteKey k l) = dictLookup k' l := by
  induction l with
  | nil => simp [sqlDeleteKey]
  | cons p rest ih =>
    obtain ⟨k0, v0⟩ := p
    simp only [sqlDeleteKey, List.filter_cons] at ih ⊢
    by_cases h0 : k0 = k
    · subst h0
      rw [if_neg (by simp), dictLookup, if_neg h]
      exact ih
    · rw [if_pos (by simpa using h0), dictLookup, dictLookup]
      by_cases h1 : k0 = k'
      · simp [h1]
      · rw [if_neg h1, if_neg h1]
        exact ih

structure MuteGuild where
  getMember : Nat → Bool

inductive RoleCallResult : Type
  | ok
  | forbidden
  | httpError

structure MuteEnv where
  is_connected : Bool
  getGuild : Nat → Option MuteGuild
  muteRole : Nat → Option Nat
  removeRolesResult : Nat → Nat → Nat → RoleCallResult
  alert_channel : Option Nat

structure MuteState where
  mutes : List ((Nat × Nat) × Option Int)
  mutesDb : List ((Nat × Nat) × Option Int)
deriving DecidableEq, Repr

inductive MuteAction : Type
  | roleRemoved (guildId memberId roleId : Nat)
  | alertSent (channelId : Nat) (text : String)
deriving DecidableEq, Repr

/-- `await alert_channel.send(text)` guarded by `if alert_channel:`. -/
def alertActions (env : MuteEnv) (text : String) : List MuteAction :=
  match env.alert_channel with
  | some channel => [.alertSent channel text]
  | none => []

/-- The body of the `auto_unmuter` loop over the snapshot
(`[((g, m), e) for (g, m), e in self.mutes.items()]`).  NOTE: the source
computes `member = guild.get_member(member_id)` BEFORE testing
`if guild is None or member is None`, so a guild that fails to resolve raises
`AttributeError` out of the sweep (the `guild is None` test is dead code);
resolution failures that are reached (`member is None`, missing mute role)
`continue` WITHOUT removing the entry. -/
def autoUnmuterGo (env : MuteEnv) (now : Int) :
    List ((Nat × Nat) × Option Int) → MuteState → List MuteAction →
    Except String (MuteState × List MuteAction)
  | [], st, acts => .ok (st, acts)
  | ((guild_id, member_id), expiry) :: rest, st, acts =>
    match expiry with
    | none => autoUnmuterGo env now rest st acts
    | some e =>
      if now < e then autoUnmuterGo env now rest st acts
      else
        match env.getGuild guild_id with
        | none => .error "AttributeError: NoneType has no attribute get_member"
        | some guild =>
          if guild.getMember member_id = false then
            autoUnmuterGo env now rest st acts
          else
            match env.muteRole guild_id with
            | none => autoUnmuterGo env now rest st acts
            | some mute_role =>
              match env.removeRolesResult guild_id member_id mute_role with
              | .forbidden =>
                autoUnmuterGo env now rest st
                  (acts ++ alertActions env "Mute expired. Lacking permission to unmute!")
              | .httpError =>
                autoUnmuterGo env now rest st
                  (acts ++ alertActions env "Mute expired. Failed to unmute!")
              | .ok =>
                autoUnmuterGo env now rest
                  ⟨dictErase (guild_id, member_id) st.mutes,
                    sqlDeleteKey (guild_id, member_id) st.mutesDb⟩
                  (acts ++ [.roleRemoved guild_id member_id mute_role] ++
                    alertActions env "Mute expired. User unmuted.")

/-- One `auto_unmuter` sweep: a no-op while disconnected, otherwise the loop
over a snapshot of the in-memory dict under the mute lock. -/
def auto_unmuter (env : MuteEnv) (now : Int) (st : MuteState) :
    Except String (MuteState × List MuteAction) :=
  if env.is_connected = false then .ok (st, [])
  else autoUnmuterGo env now st.mutes st []

/-! ### The `mute` and `unmute` commands -/

structure MuteCmdEnv where
  authorCanTarget : Bool
  muteRole : Option Nat
  alert_channel : Option Nat
  addRolesOk : Bool
  removeRolesOk : Bool
  now : Int

/-- `mute <USER> (DURATION)` (`moderation.py` lines 263-307): permission and
role checks, duration parsing via `parse_time(duration, 1)` (minimum 1 second,
error mode), `member.add_roles(mute_role)`, then under the lock the in-memory
upsert and the `ON CONFLICT DO UPDATE` upsert.  A `duration` of `None` means
an indefinite mute (the command layer never passes an empty string: a missing
argument arrives as `None`). -/
def mute (env : MuteCmdEnv) (guild_id member_id : Nat) (duration : Option String)
    (st : MuteState) : MuteState × List String :=
  if env.authorCanTarget = false then
    (st, ["You can only mute members below you in the role hierarchy."])
  else
    match env.muteRole with
    | none => (st, ["Could not retrieve mute role."])
    | some _mute_role =>
      match duration with
      | some d =>
        match parse_time d (some 1) none true with
        | .error _ => (st, ["Invalid duration. Must be valid duration and at least 1 second."])
        | .ok secs =>
          if env.addRolesOk = false then
            (st, ["Lacking permission to assign mute role."])
          else
            (⟨dictInsert (guild_id, member_id) (some (env.now + secs)) st.mutes,
              dictInsert (guild_id, member_id) (some (env.now + secs)) st.mutesDb⟩,
              ["Member was temporarily muted!"])
      | none =>
        if env.addRolesOk = false then
          (st, ["Lacking permission to assign mute role."])
        else
          (⟨dictInsert (guild_id, member_id) none st.mutes,
            dictInsert (guild_id, member_id) none st.mutesDb⟩,
            ["Member was muted!"])

/-- `unmute <USER>` (`moderation.py` lines 309-344). -/
def unmute (env : MuteCmdEnv) (guild_id member_id : Nat) (st : MuteState) :
    MuteState × List String :=
  if env.authorCanTarget = false then
    (st, ["You can only unmute members below you in the role hierarchy."])
  else
    match env.muteRole with
    | none => (st, ["Could not retrieve mute role."])
    | some _mute_role =>
      if dictLookup (guild_id, member_id) st.mutes = none then
        (st, ["This user is not muted."])
      else if env.removeRolesOk = false then
        (st, ["Lacking permission to unmute."])
      else
        (⟨dictErase (guild_id, member_id) st.mutes,
          sqlDeleteKey (guild_id, member_id) st.mutesDb⟩,
          ["Member was unmuted!"])

/-- Claim C8: scheduling a mute for `(guild_id, member_id)` with expiry `T1`
and then again with expiry `T2` (both invocations passing the permission,
role, parse and add-role steps) leaves exactly one pending entry for that
subject in the in-memory dict and exactly one row in the persisted table, with
expiry `T2` (last-write-wins upsert on both sides). -/
theorem mute_overwrite
    (env1 env2 : MuteCmdEnv) (guild_id member_id : Nat) (d1 d2 : String)
    (st : MuteState) (r1 r2 : Nat) (s1 s2 : Int)
    (h1target : env1.authorCanTarget = true) (h1role : env1.muteRole = some r1)
    (h1add : env1.addRolesOk = true) (h1parse : parse_time d1 (some 1) none true = .ok s1)
    (h2target : env2.authorCanTarget = true) (h2role : env2.muteRole = some r2)
    (h2add : env2.addRolesOk = true) (h2parse : parse_time d2 (some 1) none true = .ok s2)
    (hmem : (dictKeys st.mutes).Nodup) (hdb : (dictKeys st.mutesDb).Nodup) :
    dictCountKey (guild_id, member_id)
      (mute env2 guild_id member_id (some d2)
        (mute env1 guild_id member_id (some d1) st).1).1.mutes = 1 ∧
    dictLookup (guild_id, member_id)
      (mute env2 guild_id member_id (some d2)
        (mute env1 guild_id member_id (some d1) st).1).1.mutes =
      some (some (env2.now + s2)) ∧
    dictCountKey (guild_id, member_id)
      (mute env2 guild_id member_id (some d2)
        (mute env1 guild_id member_id (some d1) st).1).1.mutesDb = 1 ∧
    dictLookup (guild_id, member_id)
      (mute env2 guild_id member_id (some d2)
        (mute env1 guild_id member_id (some d1) st).1).1.mutesDb =
      some (some (env2.now + s2)) := by
  have hstep1 : (mute env1 guild_id member_id (some d1) st).1 =
      ⟨dictInsert (guild_id, member_id) (some (env1.now + s1)) st.mutes,
        dictInsert (guild_id, member_id) (some (env1.now + s1)) st.mutesDb⟩ := by
    rw [mute]
    simp only [h1target, h1role, h1parse, h1add, Bool.true_eq_false, if_false]
  have hstep2 : (mute env2 guild_id member_id (some d2)
      (mute env1 guild_id member_id (some d1) st).1).1 =
      ⟨dictInsert (guild_id, member_id) (some (env2.now + s2))
          (dictInsert (guild_id, member_id) (some (env1.now + s1)) st.mutes),
        dictInsert (guild_id, member_id) (some (env2.now + s2))
          (dictInsert (guild_id, member_id) (some (env1.now + s1)) st.mutesDb)⟩ := by
    rw [hstep1, mute]
    simp only [h2target, h2role, h2parse, h2add, Bool.true_eq_false, if_false]
  rw [hstep2]
  refine ⟨?_, ?_, ?_, ?_⟩
  · exact dictCountKey_dictInsert_self _ _ _
      (dictKeys_nodup_dictInsert _ _ _ hmem)
  · exact dictLookup_dictInsert_self _ _ _
  · exact dictCountKey_dictInsert_self _ _ _
      (dictKeys_nodup_dictInsert _ _ _ hdb)
  · exact dictLookup_dictInsert_self _ _ _

/-- Witness for C8: two concrete mutes of the same subject, `"5s"` then
`"1m"`, end with the single entry expiring at `now + 60`. -/
theorem mute_overwrite_witness :
    dictCountKey (1, 2)
      (mute ⟨true, some 5, none, true, true, 0⟩ 1 2 (some "1m")
        (mute ⟨true, some 5, none, true, true, 0⟩ 1 2 (some "5s") ⟨[], []⟩).1).1.mutes = 1 ∧
    dictLookup (1, 2)
      (mute ⟨true, some 5, none, true, true, 0⟩ 1 2 (some "1m")
        (mute ⟨true, some 5, none, true, true, 0⟩ 1 2 (some "5s") ⟨[], []⟩).1).1.mutes =
      some (some 60) ∧
    dictCountKey (1, 2)
      (mute ⟨true, some 5, none, true, true, 0⟩ 1 2 (some "1m")
        (mute ⟨true, some 5, none, true, true, 0⟩ 1 2 (some "5s") ⟨[], []⟩).1).1.mutesDb = 1 ∧
    dictLookup (1, 2)
      (mute ⟨true, some 5, none, true, true, 0⟩ 1 2 (some "1m")
        (mute ⟨true, some 5, none, true, true, 0⟩ 1 2 (some "5s") ⟨[], []⟩).1).1.mutesDb =
      some (some 60) :=
  mute_overwrite ⟨true, some 5, none, true, true, 0⟩ ⟨true, some 5, none, true, true, 0⟩
    1 2 "5s" "1m" ⟨[], []⟩ 5 5 5 60 rfl rfl rfl rfl rfl rfl rfl rfl
    (by simp [dictKeys]) (by simp [dictKeys])

/-- Claim C3 (code bug evaluation): a sweep over a due mute whose guild no
longer resolves raises `AttributeError` (from `guild.get_member` evaluated
before the `guild is None` test) out of the sweep, aborting processing of the
remaining due entry; under discord.py's `tasks.loop` the unhandled exception
also stops the periodic loop. -/
theorem auto_unmuter_crash_on_missing_guild :
    auto_unmuter
      ⟨true, fun _ => none, fun _ => none, fun _ _ _ => .ok, none⟩ 100
      ⟨[((1, 2), some 50), ((3, 4), some 60)], [((1, 2), some 50), ((3, 4), some 60)]⟩ =
      .error "AttributeError: NoneType has no attribute get_member" := rfl

/-! ### Memory/store agreement for the mute scheduler -/

/-- The C2 invariant for mutes: the in-memory dict and the keyed `mutes` table
hold exactly the same entries. -/
def mutesAgree (st : MuteState) : Prop :=
  ∀ k : Nat × Nat, dictLookup k st.mutes = dictLookup k st.mutesDb

theorem mute_preserves_agreement (env : MuteCmdEnv) (guild_id member_id : Nat)
    (duration : Option String) (st : MuteState) (hag : mutesAgree st) :
    mutesAgree (mute env guild_id member_id duration st).1 := by
  rw [mute.eq_def]
  by_cases ht : env.authorCanTarget = false
  · rw [if_pos ht]
    exact hag
  · rw [if_neg ht]
    cases hrole : env.muteRole with
    | none => exact hag
    | some r =>
      dsimp only
      have hins : ∀ v : Option Int, mutesAgree
          ⟨dictInsert (guild_id, member_id) v st.mutes,
            dictInsert (guild_id, member_id) v st.mutesDb⟩ := by
        intro v k
        by_cases hk : k = (guild_id, member_id)
        · subst hk
          rw [dictLookup_dictInsert_self, dictLookup_dictInsert_self]
        · rw [dictLookup_dictInsert_ne _ _ _ _ (fun hc => hk hc.symm),
            dictLookup_dictInsert_ne _ _ _ _ (fun hc => hk hc.symm)]
          exact hag k
      cases duration with
      | none =>
        dsimp only
        by_cases hadd : env.addRolesOk = false
        · rw [if_pos hadd]
          exact hag
        · rw [if_neg hadd]
          exact hins none
      | some d =>
        dsimp only
        cases hp : parse_time d (some 1) none true with
        | error e => exact hag
        | ok secs =>
          dsimp only
          by_cases hadd : env.addRolesOk = false
          · rw [if_pos hadd]
            exact hag
          · rw [if_neg hadd]
            exact hins (some (env.now + secs))

theorem erase_step_preserves_agreement (k : Nat × Nat) (st : MuteState)
    (hag : mutesAgree st) (hnod : (dictKeys st.mutes).Nodup) :
    mutesAgree ⟨dictErase k st.mutes, sqlDeleteKey k st.mutesDb⟩ := by
  intro k'
  by_cases hk : k' = k
  · subst hk
    rw [dictLookup_dictErase_self _ _ hnod, dictLookup_sqlDeleteKey_self]
  · rw [dictLookup_dictErase_ne _ _ _ (fun hc => hk hc.symm),
      dictLookup_sqlDeleteKey_ne _ _ _ (fun hc => hk hc.symm)]
    exact hag k'

theorem unmute_preserves_agreement (env : MuteCmdEnv) (guild_id member_id : Nat)
    (st : MuteState) (hag : mutesAgree st) (hnod : (dictKeys st.mutes).Nodup) :
    mutesAgree (unmute env guild_id member_id st).1 := by
  rw [unmute]
  by_cases ht : env.authorCanTarget = false
  · rw [if_pos ht]
    exact hag
  · rw [if_neg ht]
    cases hrole : env.muteRole with
    | none => exact hag
    | some r =>
      by_cases habs : dictLookup (guild_id, member_id) st.mutes = none
      · rw [if_pos habs]
        exact hag
      · rw [if_neg habs]
        by_cases hrem : env.removeRolesOk = false
        · rw [if_pos hrem]
          exact hag
        · rw [if_neg hrem]
          exact erase_step_preserves_agreement _ _ hag hnod

theorem autoUnmuterGo_preserves_agreement (env : MuteEnv) (now : Int)
    (snapshot : List ((Nat × Nat) × Option Int)) :
    ∀ (st : MuteState) (acts : List MuteAction) (st' : MuteState)
      (acts' : List MuteAction),
    mutesAgree st → (dictKeys st.mutes).Nodup →
    autoUnmuterGo env now snapshot st acts = .ok (st', acts') → mutesAgree st' := by
  induction snapshot with
  | nil =>
    intro st acts st' acts' hag hnod hrun
    rw [autoUnmuterGo] at hrun
    cases hrun
    exact hag
  | cons entry rest ih =>
    intro st acts st' acts' hag hnod hrun
    obtain ⟨⟨guild_id, member_id⟩, expiry⟩ := entry
    cases expiry with
    | none =>
      rw [autoUnmuterGo] at hrun
      exact ih st acts st' acts' hag hnod hrun
    | some e =>
      rw [autoUnmuterGo] at hrun
      by_cases hdue : now < e
      · rw [if_pos hdue] at hrun
        exact ih st acts st' acts' hag hnod hrun
      · rw [if_neg hdue] at hrun
        cases hguild : env.getGuild guild_id with
        | none =>
          rw [hguild] at hrun
          dsimp only at hrun
          exact absurd hrun (by simp)
        | some guild =>
          rw [hguild] at hrun
          dsimp only at hrun
          by_cases hmember : guild.getMember member_id = false
          · rw [if_pos hmember] at hrun
            exact ih st acts st' acts' hag hnod hrun
          · rw [if_neg hmember] at hrun
            cases hrole : env.muteRole guild_id with
            | none =>
              rw [hrole] at hrun
              dsimp only at hrun
              exact ih st acts st' acts' hag hnod hrun
            | some mute_role =>
              rw [hrole] at hrun
              dsimp only at hrun
              cases hcall : env.removeRolesResult guild_id member_id mute_role with
              | forbidden =>
                rw [hcall] at hrun
                dsimp only at hrun
                exact ih st _ st' acts' hag hnod hrun
              | httpError =>
                rw [hcall] at hrun
                dsimp only at hrun
                exact ih st _ st' acts' hag hnod hrun
              | ok =>
                rw [hcall] at hrun
                dsimp only at hrun
                exact ih _ _ st' acts'
                  (erase_step_preserves_agreement _ _ hag hnod)
                  (dictKeys_nodup_dictErase _ _ hnod) hrun

/-! ## Reminder scheduler (`modules/utils.py`)

Embedding of `remindme` and the `remind_sender` sweep.  The in-memory dict
`reminders` is keyed `(guild_id, channel_id, reminding_user)` (guild and
channel are `None` for DM reminders) with value `(until, message)`.  The
`reminders` table has NO key: `remindme` appends a plain `INSERT` row, and the
sweep's `remove()` helper issues a `DELETE` matching every column.

`remove()` reproduces two Python details: `if guild_id:` is a truthiness
test (a guild id of 0 — impossible on the platform — would take the DM
branch), and in the guild branch the SQL compares `channel = str(channel_id)`,
so a `None` channel (only possible for rows hand-loaded by `async_init`)
matches no stored `TEXT` value. -/

structure ReminderRow where
  guild : Option Nat
  channel : Option Nat
  reminding_user : Nat
  untilTs : Int
  message : String
deriving DecidableEq, Repr

structure ReminderState where
  reminders : List ((Option Nat × Option Nat × Nat) × (Int × String))
  remindersDb : List ReminderRow
deriving DecidableEq, Repr

/-- Python truthiness of an optional id (`None` and `0` are falsy). -/
def pyTruthyNat (o : Option Nat) : Bool :=
  match o with
  | none => false
  | some n => n != 0

/-- The row a reminder entry corresponds to. -/
def rowOf (key : Option Nat × Option Nat × Nat) (untilTs : Int) (message : String) :
    ReminderRow :=
  ⟨key.1, key.2.1, key.2.2, untilTs, message⟩

/-- The `remove()` helper of `remind_sender`: delete the dict entry, then
delete the matching persisted row(s). -/
def remRemove (key : Option Nat × Option Nat × Nat) (untilTs : Int) (message : String)
    (st : ReminderState) : ReminderState :=
  ⟨dictErase key st.reminders,
    if pyTruthyNat key.1 then
      st.remindersDb.filter (fun r => decide (¬ (r.guild = key.1 ∧
        (key.2.1.isSome ∧ r.channel = key.2.1) ∧
        r.reminding_user = key.2.2 ∧ r.untilTs = untilTs ∧ r.message = message)))
    else
      st.remindersDb.filter (fun r => decide (¬ (r.guild = none ∧ r.channel = none ∧
        r.reminding_user = key.2.2 ∧ r.untilTs = untilTs ∧ r.message = message)))⟩

structure RemindCtx where
  guild : Option Nat
  channel : Nat
  author : Nat
  now : Int

/-- `remindme <TIME UNTIL REMINDER> <TEXT>` (`utils.py` lines 178-199):
parse the duration (minimum 1 second, error mode), then under the lock store
the dict entry (overwriting any entry with the same scope key) and `INSERT`
a fresh row (the table is unkeyed: nothing is overwritten there). -/
def remindme (ctx : RemindCtx) (duration text : String) (st : ReminderState) :
    ReminderState × List String :=
  match parse_time duration (some 1) none true with
  | .error _ => (st, ["Invalid duration. Must be valid duration and at least 1 second."])
  | .ok secs =>
    match ctx.guild with
    | none =>
      (⟨dictInsert (none, none, ctx.author) (ctx.now + secs, text) st.reminders,
        st.remindersDb ++ [⟨none, none, ctx.author, ctx.now + secs, text⟩]⟩,
        ["Ok, will do!"])
    | some g =>
      (⟨dictInsert (some g, some ctx.channel, ctx.author) (ctx.now + secs, text) st.reminders,
        st.remindersDb ++ [⟨some g, some ctx.channel, ctx.author, ctx.now + secs, text⟩]⟩,
        ["Ok, will do!"])

structure RemGuild where
  getChannel : Nat → Bool
  getMember : Nat → Bool

structure RemEnv where
  is_connected : Bool
  getUser : Nat → Bool
  getGuild : Nat → Option RemGuild
  sendPerm : Nat → Nat → Nat → Bool

inductive RemAction : Type
  | dmSent (user : Nat) (text : String)
  | channelSent (guild channel user : Nat) (text : String)
deriving DecidableEq, Repr

/-- The body of the `remind_sender` loop over `copy(self.reminders).items()`.
Every resolution failure (`get_user`, `get_guild`, `get_channel` — including a
`None` channel id, since `get_channel(None)` is `None` — `get_member`, or a
failed send-permission check) logs, `remove()`s the entry and continues; a DM
reminder needs only the user, a guild reminder resolves
guild/channel/member/permissions before the channel send. -/
def remindSenderGo (env : RemEnv) (now : Int) :
    List ((Option Nat × Option Nat × Nat) × (Int × String)) → ReminderState →
    List RemAction → ReminderState × List RemAction
  | [], st, acts => (st, acts)
  | ((guild_id, channel_id, user_id), (untilTs, text)) :: rest, st, acts =>
    if now < untilTs then remindSenderGo env now rest st acts
    else if env.getUser user_id = false then
      remindSenderGo env now rest (remRemove (guild_id, channel_id, user_id) untilTs text st) acts
    else
      match guild_id with
      | none =>
        remindSenderGo env now rest (remRemove (none, channel_id, user_id) untilTs text st)
          (acts ++ [.dmSent user_id text])
      | some gid =>
        match env.getGuild gid with
        | none =>
          remindSenderGo env now rest
            (remRemove (some gid, channel_id, user_id) untilTs text st) acts
        | some guild =>
          match channel_id with
          | none =>
            remindSenderGo env now rest
              (remRemove (some gid, none, user_id) untilTs text st) acts
          | some cid =>
            if guild.getChannel cid = false then
              remindSenderGo env now rest
                (remRemove (some gid, some cid, user_id) untilTs text st) acts
            else if guild.getMember user_id = false then
              remindSenderGo env now rest
                (remRemove (some gid, some cid, user_id) untilTs text st) acts
            else if env.sendPerm gid cid user_id = false then
              remindSenderGo env now rest
                (remRemove (some gid, some cid, user_id) untilTs text st) acts
            else
              remindSenderGo env now rest
                (remRemove (some gid, some cid, user_id) untilTs text st)
                (acts ++ [.channelSent gid cid user_id text])

/-- One `remind_sender` sweep: a no-op while disconnected, otherwise the loop
over a copy of the in-memory dict under the reminder lock. -/
def remind_sender (env : RemEnv) (now : Int) (st : ReminderState) :
    ReminderState × List RemAction :=
  if env.is_connected = false then (st, [])
  else remindSenderGo env now st.reminders st []

/-! ### Memory/store agreement for the reminder scheduler -/

/-- Number of copies of row `r` in the (unkeyed) reminders table. -/
def countRow (db : List ReminderRow) (r : ReminderRow) : Nat :=
  (db.filter (fun x => decide (x = r))).length

theorem countRow_nil (r : ReminderRow) : countRow [] r = 0 := rfl

theorem countRow_cons (x : ReminderRow) (rest : List ReminderRow) (r : ReminderRow) :
    countRow (x :: rest) r = (if x = r then 1 else 0) + countRow rest r := by
  by_cases h : x = r <;> simp [countRow, List.filter_cons, h, Nat.add_comm]

theorem countRow_append (a b : List ReminderRow) (r : ReminderRow) :
    countRow (a ++ b) r = countRow a r + countRow b r := by
  simp [countRow, List.filter_append]

theorem countRow_filter (p : ReminderRow → Bool) (db : List ReminderRow) (r : ReminderRow) :
    countRow (db.filter p) r = if p r = true then countRow db r else 0 := by
  induction db with
  | nil => cases hp : p r <;> simp [countRow]
  | cons x rest ih =>
    rw [List.filter_cons]
    by_cases hx : p x = true
    · rw [if_pos hx, countRow_cons, ih, countRow_cons]
      by_cases hxr : x = r
      · subst hxr
        simp [hx]
      · simp [hxr]
    · rw [if_neg hx, ih]
      by_cases hxr : x = r
      · subst hxr
        simp [hx]
      · rw [countRow_cons, if_neg hxr]
        simp

theorem rowOf_inj (key key' : Option Nat × Option Nat × Nat) (t t' : Int) (m m' : String) :
    rowOf key t m = rowOf key' t' m' ↔ key = key' ∧ t = t' ∧ m = m' := by
  obtain ⟨g, c, u⟩ := key
  obtain ⟨g', c', u'⟩ := key'
  simp [rowOf, Prod.ext_iff]
  tauto

/-- The C2 invariant for reminders: every in-memory entry has exactly one
matching persisted row, and every persisted row is the row of an in-memory
entry. -/
def remAgree (st : ReminderState) : Prop :=
  ∀ (key : Option Nat × Option Nat × Nat) (t : Int) (m : String),
    countRow st.remindersDb (rowOf key t m) =
      (if dictLookup key st.reminders = some (t, m) then 1 else 0)

/-- The scope key `remindme` files the new reminder under. -/
def remindmeKey (ctx : RemindCtx) : Option Nat × Option Nat × Nat :=
  match ctx.guild with
  | none => (none, none, ctx.author)
  | some g => (some g, some ctx.channel, ctx.author)

theorem remindme_fresh_preserves_agreement (ctx : RemindCtx) (duration text : String)
    (st : ReminderState) (hag : remAgree st)
    (hfresh : dictLookup (remindmeKey ctx) st.reminders = none) :
    remAgree (remindme ctx duration text st).1 := by
  rw [remindme]
  cases hp : parse_time duration (some 1) none true with
  | error e => exact hag
  | ok secs =>
    cases hguild : ctx.guild with
    | none =>
      have hfresh2 : dictLookup (none, none, ctx.author) st.reminders = none := by
        simpa [remindmeKey, hguild] using hfresh
      dsimp only
      intro key' t' m'
      dsimp only
      by_cases hk : key' = (none, none, ctx.author)
      · subst hk
        rw [dictLookup_dictInsert_self, countRow_append, countRow_cons, countRow_nil,
          hag _ _ _, hfresh2]
        by_cases hv : ctx.now + secs = t' ∧ text = m'
        · obtain ⟨hv1, hv2⟩ := hv
          subst hv1
          subst hv2
          simp [rowOf]
        · simp [rowOf, hv]
      · rw [dictLookup_dictInsert_ne _ _ _ _ (fun hc => hk hc.symm), countRow_append,
          countRow_cons, countRow_nil, hag _ _ _]
        have hne : ((⟨none, none, ctx.author, ctx.now + secs, text⟩ : ReminderRow) ≠
            rowOf key' t' m') := by
          intro hc
          rw [show (⟨none, none, ctx.author, ctx.now + secs, text⟩ : ReminderRow) =
            rowOf (none, none, ctx.author) (ctx.now + secs) text from rfl, rowOf_inj] at hc
          exact hk hc.1.symm
        simp [hne]
    | some g =>
      have hfresh2 : dictLookup (some g, some ctx.channel, ctx.author) st.reminders = none := by
        simpa [remindmeKey, hguild] using hfresh
      dsimp only
      intro key' t' m'
      dsimp only
      by_cases hk : key' = (some g, some ctx.channel, ctx.author)
      · subst hk
        rw [dictLookup_dictInsert_self, countRow_append, countRow_cons, countRow_nil,
          hag _ _ _, hfresh2]
        by_cases hv : ctx.now + secs = t' ∧ text = m'
        · obtain ⟨hv1, hv2⟩ := hv
          subst hv1
          subst hv2
          simp [rowOf]
        · simp [rowOf, hv]
      · rw [dictLookup_dictInsert_ne _ _ _ _ (fun hc => hk hc.symm), countRow_append,
          countRow_cons, countRow_nil, hag _ _ _]
        have hne : ((⟨some g, some ctx.channel, ctx.author, ctx.now + secs, text⟩ : ReminderRow) ≠
            rowOf key' t' m') := by
          intro hc
          rw [show (⟨some g, some ctx.channel, ctx.author, ctx.now + secs, text⟩ : ReminderRow) =
            rowOf (some g, some ctx.channel, ctx.author) (ctx.now + secs) text from rfl,
            rowOf_inj] at hc
          exact hk hc.1.symm
        simp [hne]

/-- The scope-key shapes the schedulers actually create (`remindme` writes
either `(None, None, author)` or `(guild, channel, author)` with a nonzero
guild id; snowflake ids are never 0, which matters because `remove()` tests
`if guild_id:` by truthiness). -/
def wellFormedRemKey (key : Option Nat × Option Nat × Nat) : Prop :=
  (key.1 = none ∧ key.2.1 = none) ∨
    (∃ g c, g ≠ 0 ∧ key.1 = some g ∧ key.2.1 = some c)

theorem remRemove_preserves_agreement (key : Option Nat × Option Nat × Nat)
    (t : Int) (m : String) (st : ReminderState) (hag : remAgree st)
    (hnod : (dictKeys st.reminders).Nodup) (hwf : wellFormedRemKey key)
    (hmem : dictLookup key st.reminders = some (t, m)) :
    remAgree (remRemove key t m st) := by
  obtain ⟨kg, kc, ku⟩ := key
  rcases hwf with ⟨hg, hc⟩ | ⟨g, c, hg0, hg, hc⟩
  all_goals
    simp only at hg hc
    subst hg
    subst hc
  · -- DM-shaped key (guild and channel both None): the `else` DELETE branch
    intro key' t' m'
    rw [remRemove]
    simp only [pyTruthyNat, Bool.false_eq_true, if_false]
    rw [countRow_filter]
    have hq : (decide (¬ ((rowOf key' t' m').guild = none ∧ (rowOf key' t' m').channel = none ∧
        (rowOf key' t' m').reminding_user = ku ∧ (rowOf key' t' m').untilTs = t ∧
        (rowOf key' t' m').message = m)) = true) ↔
        ¬ (key' = (none, none, ku) ∧ t' = t ∧ m' = m) := by
      obtain ⟨g', c', u'⟩ := key'
      simp [rowOf, Prod.ext_iff]
      tauto
    by_cases heq : key' = (none, none, ku) ∧ t' = t ∧ m' = m
    · rw [if_neg (by rw [hq]; exact fun hcon => hcon heq)]
      obtain ⟨hk1, hk2, hk3⟩ := heq
      subst hk1
      rw [dictLookup_dictErase_self _ _ hnod]
      simp
    · rw [if_pos (by rw [hq]; exact heq), hag _ _ _]
      by_cases hkk : key' = (none, none, ku)
      · subst hkk
        rw [hmem, dictLookup_dictErase_self _ _ hnod]
        rw [if_neg (by
          intro hcon
          rcases Option.some.inj hcon with h2
          exact heq ⟨rfl, congrArg Prod.fst h2.symm, congrArg Prod.snd h2.symm⟩)]
        simp
      · rw [dictLookup_dictErase_ne _ _ _ (fun hcon => hkk hcon.symm)]
  · -- guild-shaped key (nonzero guild, channel set): the truthy DELETE branch
    intro key' t' m'
    rw [remRemove]
    have htruthy : pyTruthyNat (some g) = true := by
      simp [pyTruthyNat, hg0]
    simp only [htruthy, if_true]
    rw [countRow_filter]
    have hq : (decide (¬ ((rowOf key' t' m').guild = some g ∧
        ((some c : Option Nat).isSome ∧ (rowOf key' t' m').channel = some c) ∧
        (rowOf key' t' m').reminding_user = ku ∧ (rowOf key' t' m').untilTs = t ∧
        (rowOf key' t' m').message = m)) = true) ↔
        ¬ (key' = (some g, some c, ku) ∧ t' = t ∧ m' = m) := by
      obtain ⟨g', c', u'⟩ := key'
      simp [rowOf, Prod.ext_iff]
      tauto
    by_cases heq : key' = (some g, some c, ku) ∧ t' = t ∧ m' = m
    · rw [if_neg (by rw [hq]; exact fun hcon => hcon heq)]
      obtain ⟨hk1, hk2, hk3⟩ := heq
      subst hk1
      rw [dictLookup_dictErase_self _ _ hnod]
      simp
    · rw [if_pos (by rw [hq]; exact heq), hag _ _ _]
      by_cases hkk : key' = (some g, some c, ku)
      · subst hkk
        rw [hmem, dictLookup_dictErase_self _ _ hnod]
        rw [if_neg (by
          intro hcon
          rcases Option.some.inj hcon with h2
          exact heq ⟨rfl, congrArg Prod.fst h2.symm, congrArg Prod.snd h2.symm⟩)]
        simp
      · rw [dictLookup_dictErase_ne _ _ _ (fun hcon => hkk hcon.symm)]

/-- Claim C2 (amended): after every completed mute-scheduler operation
(`mute`, `unmute`, a full `auto_unmuter` sweep) the in-memory mute dict and
the keyed `mutes` table agree, and the reminder side agrees after a `remindme`
whose scope key is not yet present and after each sweep `remove()` step; but
scheduling a second reminder with an already-present `(guild, channel,
author)` scope key violates the invariant — the dict entry is overwritten
while a second row is INSERTed, leaving the older persisted row with no
in-memory counterpart (see the counterexample). -/
theorem scheduler_memory_store_agreement :
    (∀ (env : MuteCmdEnv) (guild_id member_id : Nat) (duration : Option String)
      (st : MuteState), mutesAgree st →
      mutesAgree (mute env guild_id member_id duration st).1) ∧
    (∀ (env : MuteCmdEnv) (guild_id member_id : Nat) (st : MuteState),
      mutesAgree st → (dictKeys st.mutes).Nodup →
      mutesAgree (unmute env guild_id member_id st).1) ∧
    (∀ (env : MuteEnv) (now : Int) (st st' : MuteState) (acts' : List MuteAction),
      mutesAgree st → (dictKeys st.mutes).Nodup →
      auto_unmuter env now st = .ok (st', acts') → mutesAgree st') ∧
    (∀ (ctx : RemindCtx) (duration text : String) (st : ReminderState),
      remAgree st → dictLookup (remindmeKey ctx) st.reminders = none →
      remAgree (remindme ctx duration text st).1) ∧
    (∀ (key : Option Nat × Option Nat × Nat) (t : Int) (m : String) (st : ReminderState),
      remAgree st → (dictKeys st.reminders).Nodup → wellFormedRemKey key →
      dictLookup key st.reminders = some (t, m) →
      remAgree (remRemove key t m st)) := by
  refine ⟨mute_preserves_agreement, unmute_preserves_agreement, ?_,
    remindme_fresh_preserves_agreement, remRemove_preserves_agreement⟩
  intro env now st st' acts' hag hnod hrun
  rw [auto_unmuter] at hrun
  by_cases hconn : env.is_connected = false
  · rw [if_pos hconn] at hrun
    cases hrun
    exact hag
  · rw [if_neg hconn] at hrun
    exact autoUnmuterGo_preserves_agreement env now st.mutes st [] st' acts' hag hnod hrun

/-- Witness for C2's amended theorem: a first `remindme` from the empty state
preserves the agreement invariant. -/
theorem scheduler_memory_store_agreement_witness :
    remAgree (remindme ⟨none, 2, 3, 0⟩ "5s" "hi" ⟨[], []⟩).1 :=
  scheduler_memory_store_agreement.2.2.2.1 ⟨none, 2, 3, 0⟩ "5s" "hi" ⟨[], []⟩
    (by
      intro key t m
      simp [countRow, dictLookup])
    rfl

/-- Claim C2 counterexample: two `remindme` invocations with the same scope
key `(guild 1, channel 2, author 3)` leave ONE in-memory entry (the second
reminder) but TWO persisted rows; the first row, with message `"a"`, has no
in-memory counterpart, so the agreement invariant fails after the completed
second `scheduleReminder`. -/
theorem remindme_double_schedule_counterexample :
    countRow (remindme ⟨some 1, 2, 3, 0⟩ "6s" "b"
        (remindme ⟨some 1, 2, 3, 0⟩ "5s" "a" ⟨[], []⟩).1).1.remindersDb
      ⟨some 1, some 2, 3, 5, "a"⟩ = 1 ∧
    dictLookup ((some 1 : Option Nat), (some 2 : Option Nat), (3 : Nat))
      (remindme ⟨some 1, 2, 3, 0⟩ "6s" "b"
        (remindme ⟨some 1, 2, 3, 0⟩ "5s" "a" ⟨[], []⟩).1).1.reminders = some (6, "b") ∧
    ¬ remAgree (remindme ⟨some 1, 2, 3, 0⟩ "6s" "b"
        (remindme ⟨some 1, 2, 3, 0⟩ "5s" "a" ⟨[], []⟩).1).1 := by
  refine ⟨rfl, rfl, ?_⟩
  intro h
  exact absurd (h (some 1, some 2, 3) 5 "a") (by decide)

/-! ### Claim C1: behaviour on resolution failure during a sweep -/

/-- Resolution of the reminder target fails somewhere along `remind_sender`'s
decision chain without reaching the send: the user lookup fails, or (for a
guild-scoped reminder) the guild, channel (`get_channel(None)` is `None`),
member, or send-permission check fails. -/
def remResolutionFails (env : RemEnv) (key : Option Nat × Option Nat × Nat) : Prop :=
  env.getUser key.2.2 = false ∨
    (match key.1 with
     | none => False
     | some gid =>
       match env.getGuild gid with
       | none => True
       | some guild =>
         match key.2.1 with
         | none => True
         | some cid =>
           guild.getChannel cid = false ∨ guild.getMember key.2.2 = false ∨
             env.sendPerm gid cid key.2.2 = false)

/-- Resolution of the mute target fails in one of the ways `auto_unmuter`
survives: the guild resolves but the member or the mute role does not.
(A failing guild lookup instead crashes the sweep — claim C3.) -/
def muteSweepResolutionFails (env : MuteEnv) (guild_id member_id : Nat) : Prop :=
  match env.getGuild guild_id with
  | none => False
  | some guild => guild.getMember member_id = false ∨ env.muteRole guild_id = none

theorem remRemove_single (key : Option Nat × Option Nat × Nat) (t : Int) (m : String)
    (hwf : wellFormedRemKey key) :
    remRemove key t m ⟨[(key, (t, m))], [rowOf key t m]⟩ = ⟨[], []⟩ := by
  obtain ⟨kg, kc, ku⟩ := key
  rcases hwf with ⟨h1, h2⟩ | ⟨g, c, h0, h1, h2⟩
  all_goals
    simp only at h1 h2
    subst h1
    subst h2
  · simp [remRemove, pyTruthyNat, rowOf, dictErase]
  · simp [remRemove, pyTruthyNat, rowOf, dictErase, h0]

/-- Claim C1 (amended): when resolution of a required entity fails for a due
entry, the REMINDER sweep removes the entry from both the in-memory map and
the persisted store and performs no delivery; the MUTE sweep instead logs and
RETAINS the entry (both in memory and in the store, retrying next pass) when
the member or mute role cannot be resolved, likewise performing no delivery.
(The claim as frozen — removal by both sweeps — is false for the mute sweep;
see the counterexample.) -/
theorem sweep_resolution_failure_behaviour :
    (∀ (env : RemEnv) (now t : Int) (key : Option Nat × Option Nat × Nat) (m : String),
      env.is_connected = true → t ≤ now → wellFormedRemKey key →
      remResolutionFails env key →
      remind_sender env now ⟨[(key, (t, m))], [rowOf key t m]⟩ = (⟨[], []⟩, [])) ∧
    (∀ (env : MuteEnv) (now e : Int) (guild_id member_id : Nat)
      (db : List ((Nat × Nat) × Option Int)),
      env.is_connected = true → e ≤ now →
      muteSweepResolutionFails env guild_id member_id →
      auto_unmuter env now ⟨[((guild_id, member_id), some e)], db⟩ =
        .ok (⟨[((guild_id, member_id), some e)], db⟩, [])) := by
  constructor
  · intro env now t key m hconn hdue hwf hfail
    rw [remind_sender, if_neg (by rw [hconn]; simp)]
    dsimp only
    obtain ⟨kg, kc, ku⟩ := key
    rw [remindSenderGo.eq_def]
    dsimp only
    rw [if_neg (not_lt.mpr hdue)]
    rcases hwf with ⟨h1, h2⟩ | ⟨g, c, h0, h1, h2⟩
    all_goals
      simp only at h1 h2
      subst h1
      subst h2
      dsimp only
    · -- DM-scoped reminder: only the user is resolved
      rcases hfail with hf | hf
      · simp only at hf
        rw [if_pos hf,
          remRemove_single (none, none, ku) t m (Or.inl ⟨rfl, rfl⟩)]
        rfl
      · exact absurd hf (by simp [remResolutionFails])
    · -- guild-scoped reminder
      by_cases huser : env.getUser ku = false
      · rw [if_pos huser,
          remRemove_single (some g, some c, ku) t m (Or.inr ⟨g, c, h0, rfl, rfl⟩)]
        rfl
      · rw [if_neg huser]
        rcases hfail with hf | hf
        · exact absurd hf huser
        · simp only at hf
          cases hguild : env.getGuild g with
          | none =>
            rw [remRemove_single (some g, some c, ku) t m (Or.inr ⟨g, c, h0, rfl, rfl⟩)]
            rfl
          | some guild =>
            dsimp only
            rw [hguild] at hf
            simp only at hf
            rcases hf with hf | hf | hf
            · rw [if_pos hf,
                remRemove_single (some g, some c, ku) t m (Or.inr ⟨g, c, h0, rfl, rfl⟩)]
              rfl
            · by_cases hch : guild.getChannel c = false
              · rw [if_pos hch,
                  remRemove_single (some g, some c, ku) t m (Or.inr ⟨g, c, h0, rfl, rfl⟩)]
                rfl
              · rw [if_neg hch, if_pos hf,
                  remRemove_single (some g, some c, ku) t m (Or.inr ⟨g, c, h0, rfl, rfl⟩)]
                rfl
            · by_cases hch : guild.getChannel c = false
              · rw [if_pos hch,
                  remRemove_single (some g, some c, ku) t m (Or.inr ⟨g, c, h0, rfl, rfl⟩)]
                rfl
              · rw [if_neg hch]
                by_cases hmem : guild.getMember ku = false
                · rw [if_pos hmem,
                    remRemove_single (some g, some c, ku) t m (Or.inr ⟨g, c, h0, rfl, rfl⟩)]
                  rfl
                · rw [if_neg hmem, if_pos hf,
                    remRemove_single (some g, some c, ku) t m (Or.inr ⟨g, c, h0, rfl, rfl⟩)]
                  rfl
  · intro env now e guild_id member_id db hconn hdue hfail
    rw [auto_unmuter, if_neg (by rw [hconn]; simp)]
    dsimp only
    rw [autoUnmuterGo, if_neg (not_lt.mpr hdue)]
    rw [muteSweepResolutionFails] at hfail
    cases hguild : env.getGuild guild_id with
    | none =>
      rw [hguild] at hfail
      exact absurd hfail (by simp)
    | some guild =>
      rw [hguild] at hfail
      simp only at hfail
      dsimp only
      rcases hfail with hf | hf
      · rw [if_pos hf]
        rfl
      · by_cases hmem : guild.getMember member_id = false
        · rw [if_pos hmem]
          rfl
        · rw [if_neg hmem, hf]
          rfl

/-- Witness for C1's amended theorem: a due DM reminder whose user lookup
fails is removed from memory and store with no delivery. -/
theorem sweep_resolution_failure_behaviour_witness :
    remind_sender ⟨true, fun _ => false, fun _ => none, fun _ _ _ => false⟩ 10
      ⟨[(((none : Option Nat), (none : Option Nat), (7 : Nat)), ((5 : Int), "x"))],
        [rowOf (none, none, 7) 5 "x"]⟩ = (⟨[], []⟩, []) :=
  sweep_resolution_failure_behaviour.1
    ⟨true, fun _ => false, fun _ => none, fun _ _ _ => false⟩ 10 5 (none, none, 7) "x"
    rfl (by decide) (Or.inl ⟨rfl, rfl⟩) (Or.inl rfl)

/-- Claim C1 counterexample: a due mute whose member lookup fails (guild
found, member gone) is NOT removed by the sweep — the entry stays in the
in-memory map and the persisted table, contradicting the claim that such
entries are removed; no delivery happens either way. -/
theorem auto_unmuter_retains_on_member_not_found :
    auto_unmuter ⟨true, fun _ => some ⟨fun _ => false⟩, fun _ => some 9,
        fun _ _ _ => .ok, none⟩ 100
      ⟨[((1, 2), some 50)], [((1, 2), some 50)]⟩ =
      .ok (⟨[((1, 2), some 50)], [((1, 2), some 50)]⟩, []) := rfl
